import Mathlib

/-!
Verification of the Acorn-128 AEAD implementation.

This file shallowly embeds the two implementations of Acorn-128 found in the
repository and proves/refutes the specification claims about them:

* the packed-word implementation (`acorn_utils.hpp` together with the word
  oriented `acorn.hpp`): the 293-bit cipher state is held in seven `uint64`
  words, advanced 32 or 8 positions per call; embedded below in namespaces
  `acorn_utils` (primitives and phases) and `acorn` (the byte-level AEAD API);
* the bit-form implementation (`bool state[293]`, single-bit
  `state_update_128`): embedded in namespace `acornbit`; the 293 bools are
  encoded as the low 293 bits of a `Nat` (bit `i` of the number is `state[i]`).

Machine integers are modelled as `Nat`.  The C code only uses `^`, `|`, `&`
and shifts on `uint64` values, and every left shift of a masked operand stays
below 2^64, so no `% 2^64` reduction can ever fire; the `Nat` operations
therefore agree exactly with the `uint64` operations on in-range values.
Where a C parameter has type `uint8_t`/`uint32_t`, theorems carry the
corresponding range hypothesis.  The C function named `initialize` is called
`init_state` here because `initialize` is a reserved word in Lean.
-/

namespace acorn_utils

/-- Maximum number representable in 32 unsigned bits (`MAX_U32`). -/
def MAX_U32 : Nat := 4294967295

/-- Maximum number representable in 8 unsigned bits (`MAX_U8`). -/
def MAX_U8 : Nat := 255

/-- All-ones 64-bit word; xor with it models C `~` on a `uint64`. -/
def U64M : Nat := 18446744073709551615

/-- The seven `uint64` words holding the 293-bit Acorn state
(segment lengths 61, 46, 47, 39, 37, 59, 4, oldest first). -/
structure PState where
  s0 : Nat
  s1 : Nat
  s2 : Nat
  s3 : Nat
  s4 : Nat
  s5 : Nat
  s6 : Nat
deriving DecidableEq

/-- The all-zero packed state (`uint64 state[7] = { 0ul }`). -/
def zeroP : PState := ⟨0, 0, 0, 0, 0, 0, 0⟩

/-- Acorn `maj` on words: `(x & y) ^ (x & z) ^ (y & z)`. -/
def maj (x y z : Nat) : Nat := ((x &&& y) ^^^ (x &&& z)) ^^^ (y &&& z)

/-- Acorn `ch` on 64-bit words: `(x & y) ^ (~x & z)`. -/
def ch (x y z : Nat) : Nat := (x &&& y) ^^^ ((x ^^^ U64M) &&& z)

/-- `ksg128`: 32 keystream bits from the packed state (result cast to
`uint32`, i.e. masked to 32 bits). -/
def ksg128 (st : PState) : Nat :=
  let w235 := st.s5 >>> 5
  let w111 := st.s2 >>> 4
  let w66 := st.s1 >>> 5
  let w12 := st.s0 >>> 12
  let w0 := maj w235 st.s1 st.s4
  let w1 := ch st.s5 w111 w66
  (((w12 ^^^ st.s3) ^^^ w0) ^^^ w1) &&& MAX_U32

/-- `fbk128` (32-bit overload): 32 feedback bits. -/
def fbk128_32 (st : PState) (ca cb ks : Nat) : Nat :=
  let w244 := st.s5 >>> 14
  let w23 := st.s0 >>> 23
  let w160 := st.s3 >>> 6
  let w196 := st.s4 >>> 3
  let w0 := maj w244 w23 w160
  let w1 := cb &&& ks
  let w2 := w196 &&& ca
  let w3 := (w0 ^^^ w1) ^^^ w2
  ((st.s0 ^^^ (st.s2 ^^^ U64M)) ^^^ w3) &&& MAX_U32

/-- `fbk128` (8-bit overload): 8 feedback bits. -/
def fbk128_8 (st : PState) (ca cb ks : Nat) : Nat :=
  let w244 := st.s5 >>> 14
  let w23 := st.s0 >>> 23
  let w160 := st.s3 >>> 6
  let w196 := st.s4 >>> 3
  let w0 := maj w244 w23 w160
  let w1 := cb &&& ks
  let w2 := w196 &&& ca
  let w3 := (w0 ^^^ w1) ^^^ w2
  ((st.s0 ^^^ (st.s2 ^^^ U64M)) ^^^ w3) &&& MAX_U8

/-- Step 1 of every bulk update: the six intra-register tap xors, on 32-bit
lanes.  Factored out because all four `state_update_128` overloads share it. -/
def tapxor32 (ps : PState) : PState :=
  let w235 := ps.s5 >>> 5
  let w196 := ps.s4 >>> 3
  let w160 := ps.s3 >>> 6
  let w111 := ps.s2 >>> 4
  let w66 := ps.s1 >>> 5
  let w23 := ps.s0 >>> 23
  { s0 := ps.s0
    s1 := ps.s1 ^^^ ((ps.s0 ^^^ w23) &&& MAX_U32)
    s2 := ps.s2 ^^^ ((ps.s1 ^^^ w66) &&& MAX_U32)
    s3 := ps.s3 ^^^ ((ps.s2 ^^^ w111) &&& MAX_U32)
    s4 := ps.s4 ^^^ ((ps.s3 ^^^ w160) &&& MAX_U32)
    s5 := ps.s5 ^^^ ((ps.s4 ^^^ w196) &&& MAX_U32)
    s6 := ps.s6 ^^^ ((ps.s5 ^^^ w235) &&& MAX_U32) }

/-- Step 4 of the 32-bit updates: feed `fm = fb ^ m` into the top of the
register and shift every segment down by 32 bits. -/
def shift32 (st : PState) (fm : Nat) : PState :=
  let t6 := st.s6 ^^^ (fm <<< 4)
  { s0 := (st.s0 >>> 32) ||| ((st.s1 &&& MAX_U32) <<< 29)
    s1 := (st.s1 >>> 32) ||| ((st.s2 &&& MAX_U32) <<< 14)
    s2 := (st.s2 >>> 32) ||| ((st.s3 &&& MAX_U32) <<< 15)
    s3 := (st.s3 >>> 32) ||| ((st.s4 &&& MAX_U32) <<< 7)
    s4 := (st.s4 >>> 32) ||| ((st.s5 &&& MAX_U32) <<< 5)
    s5 := (st.s5 >>> 32) ||| ((t6 &&& MAX_U32) <<< 27)
    s6 := t6 >>> 32 }

/-- `state_update_128` (32-bit encrypt form): absorbs the 32 message bits `m`
and returns the new state with the 32 keystream bits. -/
def state_update_128_enc32 (ps : PState) (m ca cb : Nat) : PState × Nat :=
  let st := tapxor32 ps
  let ks := ksg128 st
  let fb := fbk128_32 st ca cb ks
  (shift32 st (fb ^^^ m), ks)

/-- `state_update_128` (32-bit decrypt form): takes 32 ciphertext bits `mIn`,
recovers the 32 plaintext bits (second component) and feeds them back. -/
def state_update_128_dec32 (ps : PState) (mIn ca cb : Nat) : PState × Nat :=
  let st := tapxor32 ps
  let ks := ksg128 st
  let mOut := mIn ^^^ ks
  let fb := fbk128_32 st ca cb ks
  (shift32 st (fb ^^^ mOut), mOut)

/-- Step 1 of the 8-bit updates: the six tap xors on 8-bit lanes. -/
def tapxor8 (ps : PState) : PState :=
  let w235 := ps.s5 >>> 5
  let w196 := ps.s4 >>> 3
  let w160 := ps.s3 >>> 6
  let w111 := ps.s2 >>> 4
  let w66 := ps.s1 >>> 5
  let w23 := ps.s0 >>> 23
  { s0 := ps.s0
    s1 := ps.s1 ^^^ ((ps.s0 ^^^ w23) &&& MAX_U8)
    s2 := ps.s2 ^^^ ((ps.s1 ^^^ w66) &&& MAX_U8)
    s3 := ps.s3 ^^^ ((ps.s2 ^^^ w111) &&& MAX_U8)
    s4 := ps.s4 ^^^ ((ps.s3 ^^^ w160) &&& MAX_U8)
    s5 := ps.s5 ^^^ ((ps.s4 ^^^ w196) &&& MAX_U8)
    s6 := ps.s6 ^^^ ((ps.s5 ^^^ w235) &&& MAX_U8) }

/-- Step 4 of the 8-bit updates: feed `fm` in and shift every segment down by
8 bits. -/
def shift8 (st : PState) (fm : Nat) : PState :=
  let t6 := st.s6 ^^^ (fm <<< 4)
  { s0 := (st.s0 >>> 8) ||| ((st.s1 &&& MAX_U8) <<< 53)
    s1 := (st.s1 >>> 8) ||| ((st.s2 &&& MAX_U8) <<< 38)
    s2 := (st.s2 >>> 8) ||| ((st.s3 &&& MAX_U8) <<< 39)
    s3 := (st.s3 >>> 8) ||| ((st.s4 &&& MAX_U8) <<< 31)
    s4 := (st.s4 >>> 8) ||| ((st.s5 &&& MAX_U8) <<< 29)
    s5 := (st.s5 >>> 8) ||| ((t6 &&& MAX_U8) <<< 51)
    s6 := t6 >>> 8 }

/-- `state_update_128` (8-bit encrypt form). -/
def state_update_128_enc8 (ps : PState) (m ca cb : Nat) : PState × Nat :=
  let st := tapxor8 ps
  let ks := ksg128 st &&& MAX_U8
  let fb := fbk128_8 st ca cb ks
  (shift8 st (fb ^^^ m), ks)

/-- `state_update_128` (8-bit decrypt form). -/
def state_update_128_dec8 (ps : PState) (mIn ca cb : Nat) : PState × Nat :=
  let st := tapxor8 ps
  let ks := ksg128 st &&& MAX_U8
  let mOut := mIn ^^^ ks
  let fb := fbk128_8 st ca cb ks ^^^ mOut
  (shift8 st fb, mOut)

end acorn_utils

namespace acorn_utils

/-- `from_be_bytes`: four big-endian bytes to a 32-bit word. -/
def from_be_bytes (b0 b1 b2 b3 : Nat) : Nat :=
  ((b0 <<< 24) ||| (b1 <<< 16)) ||| ((b2 <<< 8) ||| b3)

/-- `to_be_bytes`: a 32-bit word to four big-endian bytes
(`static_cast<uint8_t>(word >> ((3u - i) << 3))`). -/
def to_be_bytes (w : Nat) : List Nat :=
  [(w >>> 24) &&& MAX_U8, (w >>> 16) &&& MAX_U8, (w >>> 8) &&& MAX_U8, w &&& MAX_U8]

/-- The 32-bit word read from byte offset `4*i` of a byte sequence
(`from_be_bytes(p + (i << 2))`); out-of-range bytes default to 0. -/
def word_at (l : List Nat) (i : Nat) : Nat :=
  from_be_bytes (l.getD (4 * i) 0) (l.getD (4 * i + 1) 0)
    (l.getD (4 * i + 2) 0) (l.getD (4 * i + 3) 0)

/-- `initialize` of `acorn_utils.hpp` (packed form): absorb the four key
words, the four nonce words, the first key word xor 1, and 47 further key
words read cyclically (`key + ((i & 3) << 2)` for `i = 1..47`), each through
a 32-bit `state_update_128` with `ca = cb = MAX_U32`.  Named `init_state`
because `initialize` is reserved in Lean. -/
def init_state (ps : PState) (key iv : List Nat) : PState :=
  let ps := (List.range 4).foldl
    (fun ps i => (state_update_128_enc32 ps (word_at key i) MAX_U32 MAX_U32).1) ps
  let ps := (List.range 4).foldl
    (fun ps i => (state_update_128_enc32 ps (word_at iv i) MAX_U32 MAX_U32).1) ps
  let ps := (state_update_128_enc32 ps (word_at key 0 ^^^ 1) MAX_U32 MAX_U32).1
  (List.range 47).foldl
    (fun ps j => (state_update_128_enc32 ps (word_at key ((j + 1) % 4)) MAX_U32 MAX_U32).1) ps

/-- The trailer appended by `process_associated_data`: one 32-bit update with
message word `1` and `ca = cb = MAX_U32`, four zero words with
`ca = cb = MAX_U32`, four zero words with `ca = MIN_U32, cb = MAX_U32`. -/
def ad_trailer (ps : PState) : PState :=
  let ps := (state_update_128_enc32 ps 1 MAX_U32 MAX_U32).1
  let ps := (List.range 4).foldl
    (fun ps _ => (state_update_128_enc32 ps 0 MAX_U32 MAX_U32).1) ps
  (List.range 4).foldl
    (fun ps _ => (state_update_128_enc32 ps 0 0 MAX_U32).1) ps

/-- `process_associated_data` (packed form): the `data_len >> 2` full 32-bit
chunks, then the `data_len % 4` leftover bytes through 8-bit updates, then
the trailer.  The C loops over chunk indices are rendered as structural
recursion over the byte list, four bytes at a time. -/
def process_associated_data (ps : PState) (data : List Nat) : PState :=
  match data with
  | b0 :: b1 :: b2 :: b3 :: rest =>
      process_associated_data
        ((state_update_128_enc32 ps (from_be_bytes b0 b1 b2 b3) MAX_U32 MAX_U32).1) rest
  | rest =>
      ad_trailer (rest.foldl (fun ps b => (state_update_128_enc8 ps b MAX_U8 MAX_U8).1) ps)

/-- The trailer appended by `process_plain_text` and `process_cipher_text`:
as `ad_trailer` but with `cb = MIN_U32` throughout. -/
def pt_trailer (ps : PState) : PState :=
  let ps := (state_update_128_enc32 ps 1 MAX_U32 0).1
  let ps := (List.range 4).foldl
    (fun ps _ => (state_update_128_enc32 ps 0 MAX_U32 0).1) ps
  (List.range 4).foldl
    (fun ps _ => (state_update_128_enc32 ps 0 0 0).1) ps

/-- The leftover-byte loop of `process_plain_text`: each plaintext byte goes
through an 8-bit encrypt update, the cipher byte is `dec ^ ks`. -/
def ppt_tail (ps : PState) (text : List Nat) : PState × List Nat :=
  match text with
  | [] => (ps, [])
  | b :: rest =>
      let r := state_update_128_enc8 ps b MAX_U8 0
      let rr := ppt_tail r.1 rest
      (rr.1, (b ^^^ r.2) :: rr.2)

/-- `process_plain_text` (packed form): full 32-bit chunks
(`enc = dec ^ ks`, written back big-endian), leftover bytes, trailer. -/
def process_plain_text (ps : PState) (text : List Nat) : PState × List Nat :=
  match text with
  | b0 :: b1 :: b2 :: b3 :: rest =>
      let dec := from_be_bytes b0 b1 b2 b3
      let r := state_update_128_enc32 ps dec MAX_U32 0
      let rr := process_plain_text r.1 rest
      (rr.1, to_be_bytes (dec ^^^ r.2) ++ rr.2)
  | rest =>
      let t := ppt_tail ps rest
      (pt_trailer t.1, t.2)

/-- The leftover-byte loop of `process_cipher_text`: 8-bit decrypt updates. -/
def pct_tail (ps : PState) (cipher : List Nat) : PState × List Nat :=
  match cipher with
  | [] => (ps, [])
  | b :: rest =>
      let r := state_update_128_dec8 ps b MAX_U8 0
      let rr := pct_tail r.1 rest
      (rr.1, r.2 :: rr.2)

/-- `process_cipher_text` (packed form): full 32-bit chunks through the
decrypt-form update (recovered word written back big-endian), leftover bytes,
then the same trailer as `process_plain_text` (the trailer uses the
encrypt-form update in the source as well). -/
def process_cipher_text (ps : PState) (cipher : List Nat) : PState × List Nat :=
  match cipher with
  | b0 :: b1 :: b2 :: b3 :: rest =>
      let r := state_update_128_dec32 ps (from_be_bytes b0 b1 b2 b3) MAX_U32 0
      let rr := process_cipher_text r.1 rest
      (rr.1, to_be_bytes r.2 ++ rr.2)
  | rest =>
      let t := pct_tail ps rest
      (pt_trailer t.1, t.2)

/-- `finalize` (packed form): 20 discarded 32-bit updates with
`ca = cb = MAX_U32`, then 4 updates whose keystream words become the 16 tag
bytes (big-endian). -/
def finalize (ps : PState) : PState × List Nat :=
  let ps := (List.range 20).foldl
    (fun ps _ => (state_update_128_enc32 ps 0 MAX_U32 MAX_U32).1) ps
  (List.range 4).foldl
    (fun a _ =>
      let r := state_update_128_enc32 a.1 0 MAX_U32 MAX_U32
      (r.1, a.2 ++ to_be_bytes r.2))
    (ps, ([] : List Nat))

end acorn_utils

namespace acorn

open acorn_utils

/-- `acorn::encrypt` (packed form, `include/acorn.hpp`): returns
`(cipher, tag)`. -/
def encrypt (key nonce text data : List Nat) : List Nat × List Nat :=
  let ps := zeroP
  let ps := init_state ps key nonce
  let ps := process_associated_data ps data
  let r := process_plain_text ps text
  (r.2, (finalize r.1).2)

/-- The 16-byte tag recomputed inside `acorn::decrypt` by running
`initialize`, `process_associated_data`, `process_cipher_text`, `finalize`
on `(key, nonce, data, cipher)`. -/
def recomputed_tag (key nonce cipher data : List Nat) : List Nat :=
  let ps := zeroP
  let ps := init_state ps key nonce
  let ps := process_associated_data ps data
  (finalize (process_cipher_text ps cipher).1).2

/-- `acorn::decrypt` (packed form): returns the decrypted bytes and the
verification flag `!fail` where
`fail |= (tag[i] ^ tag_[i])` over the 16 tag bytes. -/
def decrypt (key nonce tag cipher data : List Nat) : List Nat × Bool :=
  let ps := zeroP
  let ps := init_state ps key nonce
  let ps := process_associated_data ps data
  let r := process_cipher_text ps cipher
  let tagR := (finalize r.1).2
  let fail := (List.range 16).foldl
    (fun f i => f || ((tag.getD i 0 ^^^ tagR.getD i 0) != 0)) false
  (r.2, !fail)

end acorn

namespace acornbit

/-- Acorn `maj` on single bits (`bool` in the source). -/
def maj (x y z : Bool) : Bool := xor (xor (x && y) (x && z)) (y && z)

/-- Acorn `ch` on single bits. -/
def ch (x y z : Bool) : Bool := xor (x && y) (!x && z)

/-- Bit `i` of the `bool state[293]` array, which this embedding stores as
the low 293 bits of a `Nat`. -/
def getBit (s : Nat) (i : Nat) : Bool := s.testBit i

/-- `state[i] = state[i] ^ b`: flip bit `i` when `b` is true. -/
def flipIf (s : Nat) (i : Nat) (b : Bool) : Nat := s ^^^ ((cond b 1 0) <<< i)

/-- `ksg128` (bit form): the single keystream bit. -/
def ksg128 (s : Nat) : Bool :=
  xor (xor (getBit s 12) (getBit s 154))
    (xor (maj (getBit s 235) (getBit s 61) (getBit s 193))
      (ch (getBit s 230) (getBit s 111) (getBit s 66)))

/-- `fbk128` (bit form): the single feedback bit. -/
def fbk128 (s : Nat) (ca cb ks : Bool) : Bool :=
  xor (xor (xor (getBit s 0) (!getBit s 107))
      (maj (getBit s 244) (getBit s 23) (getBit s 160)))
    (xor (ca && getBit s 196) (cb && ks))

/-- `state_update_128` (bit form): the six tap xors, the keystream bit, the
feedback bit, then the down-shift (`s[j] = s[j+1]`, realised as `>>> 1`) with
`fb ^ m` entering at position 292. -/
def state_update_128 (s : Nat) (m ca cb : Bool) : Nat × Bool :=
  let s := flipIf s 289 (xor (getBit s 235) (getBit s 230))
  let s := flipIf s 230 (xor (getBit s 196) (getBit s 193))
  let s := flipIf s 193 (xor (getBit s 160) (getBit s 154))
  let s := flipIf s 154 (xor (getBit s 111) (getBit s 107))
  let s := flipIf s 107 (xor (getBit s 66) (getBit s 61))
  let s := flipIf s 61 (xor (getBit s 23) (getBit s 0))
  let ks := ksg128 s
  let fb := fbk128 s ca cb ks
  ((s >>> 1) ^^^ ((cond (xor fb m) 1 0) <<< 292), ks)

/-- Absorb a list of message bits in order, all under the same `(ca, cb)`,
discarding the keystream (the common loop shape of the bit-form phases). -/
def absorb (s : Nat) (bits : List Bool) (ca cb : Bool) : Nat :=
  bits.foldl (fun s b => (state_update_128 s b ca cb).1) s

/-- `initialize` (bit form, `acorn` namespace of the source): zero the state,
absorb the 128 key bits, the 128 nonce bits, `key[0] ^ 1`, then 1535 key bits
read cyclically from position 1, all with `ca = cb = 1`.  Named `init_state`
because `initialize` is reserved in Lean. -/
def init_state (key iv : List Bool) : Nat :=
  let s : Nat := 0
  let s := (List.range 128).foldl
    (fun s i => (state_update_128 s (key.getD i false) true true).1) s
  let s := (List.range 128).foldl
    (fun s i => (state_update_128 s (iv.getD i false) true true).1) s
  let s := (state_update_128 s (xor (key.getD 0 false) true) true true).1
  (List.range 1535).foldl
    (fun s j => (state_update_128 s (key.getD ((j + 1) % 128) false) true true).1) s

/-- `bit_at<pos>`: bit `pos` of a byte, as a `bool`. -/
def bit_at (pos byte : Nat) : Bool := Nat.testBit byte pos

/-- The bits of one byte most-significant first:
`[bit_at<7> b, ..., bit_at<0> b]`. -/
def bitsOfByteMsb (b : Nat) : List Bool :=
  [bit_at 7 b, bit_at 6 b, bit_at 5 b, bit_at 4 b,
   bit_at 3 b, bit_at 2 b, bit_at 1 b, bit_at 0 b]

/-- A byte sequence expanded to bits, most-significant bit of each byte
first (the expansion loops of the bit-form byte-level functions). -/
def msbBits (l : List Nat) : List Bool := (l.map bitsOfByteMsb).flatten

/-- Pack eight bits (most significant first) into a byte, as the source does
with `(uint8_t(c7) << 7) | ... | uint8_t(c0)`. -/
def byteOfBitsMsb (b7 b6 b5 b4 b3 b2 b1 b0 : Bool) : Nat :=
  ((((cond b7 1 0) <<< 7 ||| (cond b6 1 0) <<< 6) |||
    ((cond b5 1 0) <<< 5 ||| (cond b4 1 0) <<< 4)) |||
   (((cond b3 1 0) <<< 3 ||| (cond b2 1 0) <<< 2) |||
    ((cond b1 1 0) <<< 1 ||| (cond b0 1 0))))

/-- Regroup a bit list into bytes, eight bits per byte, most significant
first; an incomplete trailing group is dropped. -/
def bytesOfBitsMsb : List Bool → List Nat
  | b7 :: b6 :: b5 :: b4 :: b3 :: b2 :: b1 :: b0 :: rest =>
      byteOfBitsMsb b7 b6 b5 b4 b3 b2 b1 b0 :: bytesOfBitsMsb rest
  | _ => []

/-- `process_associated_data` (bit form, byte level): eight updates per data
byte, most-significant bit first, with `ca = cb = 1`; then one `1` bit with
`(1,1)`, 127 `0` bits with `(1,1)` and 128 `0` bits with `(0,1)`. -/
def process_associated_data (s : Nat) (data : List Nat) : Nat :=
  let s := data.foldl
    (fun s byte =>
      let s := (state_update_128 s (bit_at 7 byte) true true).1
      let s := (state_update_128 s (bit_at 6 byte) true true).1
      let s := (state_update_128 s (bit_at 5 byte) true true).1
      let s := (state_update_128 s (bit_at 4 byte) true true).1
      let s := (state_update_128 s (bit_at 3 byte) true true).1
      let s := (state_update_128 s (bit_at 2 byte) true true).1
      let s := (state_update_128 s (bit_at 1 byte) true true).1
      (state_update_128 s (bit_at 0 byte) true true).1)
    s
  let s := (state_update_128 s true true true).1
  let s := (List.range 127).foldl (fun s _ => (state_update_128 s false true true).1) s
  (List.range 128).foldl (fun s _ => (state_update_128 s false false true).1) s

/-- One byte of `process_plain_text` (bit form): eight encrypt steps with
`(ca, cb) = (1, 0)`, the cipher bit being `ks ^ p`, repacked most-significant
first. -/
def ppt_byte (s : Nat) (byte : Nat) : Nat × Nat :=
  let r7 := state_update_128 s (bit_at 7 byte) true false
  let r6 := state_update_128 r7.1 (bit_at 6 byte) true false
  let r5 := state_update_128 r6.1 (bit_at 5 byte) true false
  let r4 := state_update_128 r5.1 (bit_at 4 byte) true false
  let r3 := state_update_128 r4.1 (bit_at 3 byte) true false
  let r2 := state_update_128 r3.1 (bit_at 2 byte) true false
  let r1 := state_update_128 r2.1 (bit_at 1 byte) true false
  let r0 := state_update_128 r1.1 (bit_at 0 byte) true false
  (r0.1,
   byteOfBitsMsb (xor r7.2 (bit_at 7 byte)) (xor r6.2 (bit_at 6 byte))
     (xor r5.2 (bit_at 5 byte)) (xor r4.2 (bit_at 4 byte))
     (xor r3.2 (bit_at 3 byte)) (xor r2.2 (bit_at 2 byte))
     (xor r1.2 (bit_at 1 byte)) (xor r0.2 (bit_at 0 byte)))

/-- `process_plain_text` (bit form, byte level): per-byte encryption, then
one `1` bit with `(1,0)`, 127 `0` bits with `(1,0)`, 128 `0` bits with
`(0,0)`. -/
def process_plain_text (s : Nat) (text : List Nat) : Nat × List Nat :=
  let r := text.foldl
    (fun (a : Nat × List Nat) byte =>
      let rb := ppt_byte a.1 byte
      (rb.1, a.2 ++ [rb.2]))
    (s, [])
  let s := (state_update_128 r.1 true true false).1
  let s := (List.range 127).foldl (fun s _ => (state_update_128 s false true false).1) s
  ((List.range 128).foldl (fun s _ => (state_update_128 s false false false).1) s, r.2)

/-- One tag byte of `finalize` (bit form): eight keystream bits with
`(ca, cb) = (1, 1)`, packed most-significant first. -/
def fin_byte (s : Nat) : Nat × Nat :=
  let r7 := state_update_128 s false true true
  let r6 := state_update_128 r7.1 false true true
  let r5 := state_update_128 r6.1 false true true
  let r4 := state_update_128 r5.1 false true true
  let r3 := state_update_128 r4.1 false true true
  let r2 := state_update_128 r3.1 false true true
  let r1 := state_update_128 r2.1 false true true
  let r0 := state_update_128 r1.1 false true true
  (r0.1, byteOfBitsMsb r7.2 r6.2 r5.2 r4.2 r3.2 r2.2 r1.2 r0.2)

/-- The tag-byte loop of `finalize` (bit form), `n` bytes. -/
def fin_bytes (s : Nat) (n : Nat) : Nat × List Nat :=
  match n with
  | 0 => (s, [])
  | n + 1 =>
      let r := fin_byte s
      let rr := fin_bytes r.1 n
      (rr.1, r.2 :: rr.2)

/-- `finalize` (bit form): 640 discarded steps with `(1,1)`, then 16 tag
bytes of 8 keystream bits each. -/
def finalize (s : Nat) : Nat × List Nat :=
  fin_bytes ((List.range 640).foldl (fun s _ => (state_update_128 s false true true).1) s) 16

/-- `acorn::encrypt` (bit form, byte level): expand key and nonce bits
most-significant first, then initialize, associated data, plaintext,
finalize. -/
def encrypt (key nonce text data : List Nat) : List Nat × List Nat :=
  let s := init_state (msbBits key) (msbBits nonce)
  let s := process_associated_data s data
  let r := process_plain_text s text
  (r.2, (finalize r.1).2)

end acornbit

namespace acornbit

/-- Encrypt a stream of plaintext bits: each bit is absorbed with
`(ca, cb) = (1, 0)` and the cipher bit `ks ^ p` is emitted.  This is the
bit-level model of the plaintext phase used to state the MSB-first
refinement claim (spec sections 4.6.3 and 6.2). -/
def enc_bits (s : Nat) (bits : List Bool) : Nat × List Bool :=
  match bits with
  | [] => (s, [])
  | p :: rest =>
      let r := state_update_128 s p true false
      let rr := enc_bits r.1 rest
      (rr.1, xor r.2 p :: rr.2)

/-- Emit `n` keystream bits with `(ca, cb) = (1, 1)` (bit-level model of the
tag-emitting half of `finalize`). -/
def ks_bits (s : Nat) (n : Nat) : Nat × List Bool :=
  match n with
  | 0 => (s, [])
  | n + 1 =>
      let r := state_update_128 s false true true
      let rr := ks_bits r.1 n
      (rr.1, r.2 :: rr.2)

/-- The 256-bit associated-data trailer as the spec states it: one `1` bit
with `(1,1)`, 127 `0` bits with `(1,1)`, 128 `0` bits with `(0,1)`. -/
def ad_trailer_bits : Nat → Nat := fun s =>
  let s := (state_update_128 s true true true).1
  let s := (List.range 127).foldl (fun s _ => (state_update_128 s false true true).1) s
  (List.range 128).foldl (fun s _ => (state_update_128 s false false true).1) s

/-- The 256-bit plaintext trailer: as `ad_trailer_bits` with `cb = 0`. -/
def pt_trailer_bits : Nat → Nat := fun s =>
  let s := (state_update_128 s true true false).1
  let s := (List.range 127).foldl (fun s _ => (state_update_128 s false true false).1) s
  (List.range 128).foldl (fun s _ => (state_update_128 s false false false).1) s

/-- The bit-level Acorn model on bit streams (spec sections 4.5 and 4.6):
initialize from the key and nonce bit streams, absorb the associated-data
bits with `(1,1)` plus the 256-bit trailer, encrypt the plaintext bits plus
the 256-bit trailer, run 640 finalize steps and emit the last 128 keystream
bits as the tag.  Returns `(cipher bits, tag bits)`. -/
def stream_encrypt (keyB ivB adB ptB : List Bool) : List Bool × List Bool :=
  let s := init_state keyB ivB
  let s := ad_trailer_bits (absorb s adB true true)
  let r := enc_bits s ptB
  let s := pt_trailer_bits r.1
  let s := (List.range 640).foldl (fun s _ => (state_update_128 s false true true).1) s
  (r.2, (ks_bits s 128).2)

/-- The byte-level encryption the MSB-first convention claims: run the
bit-level model on the MSB-first expansion of every byte input and repack
cipher and tag bits into bytes most-significant first. -/
def msb_model_encrypt (key nonce text data : List Nat) : List Nat × List Nat :=
  let r := stream_encrypt (msbBits key) (msbBits nonce) (msbBits data) (msbBits text)
  (bytesOfBitsMsb r.1, bytesOfBitsMsb r.2)

end acornbit

namespace acorn_utils

/-- The 293-bit logical view of a packed state: segment `j` of the state
holds logical bits starting at offset 0, 61, 107, 154, 193, 230, 289 (the
layout fixed by the tap reads `state[5] >> 5 = s[235]` etc. and by the
segment lengths 61, 46, 47, 39, 37, 59, 4 in the shift comments). -/
def toBits (ps : PState) : Nat :=
  (((ps.s0 ||| (ps.s1 <<< 61)) ||| ((ps.s2 <<< 107) ||| (ps.s3 <<< 154))) |||
   ((ps.s4 <<< 193) ||| ((ps.s5 <<< 230) ||| (ps.s6 <<< 289))))

/-- Number of message bits absorbed by one call of the packed
`process_associated_data` on `data_len` bytes, read off its loop structure:
`data_len >> 2` 32-bit words, `data_len % 4` bytes, then the trailer calls
`(1u, MAX, MAX)`, four `(0, MAX, MAX)` words and four `(0, MIN, MAX)`
words of 32 bits each. -/
def ad_absorbed_bits (dataLen : Nat) : Nat :=
  32 * (dataLen / 4) + 8 * (dataLen % 4) + 32 + 4 * 32 + 4 * 32

end acorn_utils

namespace acornbit

/-- A fold of `n` single-bit updates that all absorb the same message bit
under the same controls (the shape of the long loops of the bit-form
phases); used to evaluate those loops in bounded chunks. -/
def constChunk (m ca cb : Bool) (n s : Nat) : Nat :=
  (List.range n).foldl (fun t _ => (state_update_128 t m ca cb).1) s

/-- A window of the cyclic key-absorption loop of the bit-form
`initialize`: `n` steps starting at loop index `off + 1`. -/
def keyCycleChunk (kb : List Bool) (off n s : Nat) : Nat :=
  (List.range n).foldl
    (fun t j => (state_update_128 t (kb.getD ((off + j + 1) % 128) false) true true).1) s

end acornbit

namespace acorn_utils

/-- The in-range invariant of the packed state: every word holds only its
segment's significant bits (61, 46, 47, 39, 37, 59 and 4 of them). -/
def PBounds (ps : PState) : Prop :=
  ps.s0 < 2 ^ 61 ∧ ps.s1 < 2 ^ 46 ∧ ps.s2 < 2 ^ 47 ∧ ps.s3 < 2 ^ 39 ∧
  ps.s4 < 2 ^ 37 ∧ ps.s5 < 2 ^ 59 ∧ ps.s6 < 2 ^ 4

instance (ps : PState) : Decidable (PBounds ps) := by
  unfold PBounds; infer_instance

end acorn_utils

/-- The key of the README usage example (S1): bytes `00 01 .. 0f`. -/
def kS1 : List Nat := [0, 1, 2, 3, 4, 5, 6, 7, 8, 9, 10, 11, 12, 13, 14, 15]

/-- The nonce of the README usage example: bytes `ff fe .. f0`. -/
def nS1 : List Nat :=
  [255, 254, 253, 252, 251, 250, 249, 248, 247, 246, 245, 244, 243, 242, 241, 240]

/-- The associated data of the README usage example: bytes `00 01 .. 0f`. -/
def aS1 : List Nat := [0, 1, 2, 3, 4, 5, 6, 7, 8, 9, 10, 11, 12, 13, 14, 15]

/-- The plaintext of the README usage example: bytes `00 01 .. 1f`. -/
def pS1 : List Nat := List.range 32

/-- The ciphertext documented in the README for the S1 inputs. -/
def expC : List Nat :=
  [0xb4, 0x2e, 0x4d, 0xca, 0x2a, 0xce, 0xfd, 0xec, 0x58, 0xda, 0x84, 0x9a,
   0x2d, 0xec, 0xac, 0xe7, 0x95, 0x27, 0x06, 0x88, 0x1f, 0xef, 0x46, 0xb8,
   0xab, 0xd3, 0x9d, 0x3a, 0xc0, 0x2a, 0x9f, 0x41]

/-- The tag documented in the README for the S1 inputs. -/
def expT : List Nat :=
  [0x06, 0x28, 0x80, 0x70, 0xf2, 0xf0, 0x6b, 0x8f, 0x31, 0xea, 0xa9, 0x03,
   0x41, 0xf0, 0x80, 0xa5]

/-- The packed state reached from the zero state by five 32-bit
`state_update_128` calls with message word 0 and `ca = cb = MAX_U32`
(the reachable state witnessing the bulk/single-bit divergence). -/
def s5c : acorn_utils.PState :=
  (List.range 5).foldl
    (fun ps _ => (acorn_utils.state_update_128_enc32 ps 0 acorn_utils.MAX_U32 acorn_utils.MAX_U32).1)
    acorn_utils.zeroP

section theorems

open acorn_utils

theorem shr_lt_pow {x : Nat} (j k : Nat) (h : x < 2 ^ (j + k)) : x >>> k < 2 ^ j := by
  rw [Nat.shiftRight_eq_div_pow]
  rw [Nat.div_lt_iff_lt_mul (Nat.pos_pow_of_pos k (by omega))]
  rwa [← Nat.pow_add]

theorem shl_lt_pow {x : Nat} (j k : Nat) (h : x < 2 ^ j) : x <<< k < 2 ^ (j + k) := by
  rw [Nat.shiftLeft_eq, Nat.pow_add]
  exact Nat.mul_lt_mul_of_lt_of_le h (Nat.le_refl _) (Nat.pos_pow_of_pos k (by omega))

theorem lt_pow_mono {x i j : Nat} (h : x < 2 ^ i) (hij : i ≤ j) : x < 2 ^ j :=
  lt_of_lt_of_le h (Nat.pow_le_pow_right (by omega) hij)

theorem and_MAX_U32_lt (x : Nat) : x &&& MAX_U32 < 2 ^ 32 :=
  Nat.and_lt_two_pow x (by decide)

theorem and_MAX_U8_lt (x : Nat) : x &&& MAX_U8 < 2 ^ 8 :=
  Nat.and_lt_two_pow x (by decide)

theorem tapxor32_bounds {ps : PState} (h : PBounds ps) :
    (tapxor32 ps).s0 < 2 ^ 61 ∧ (tapxor32 ps).s1 < 2 ^ 46 ∧ (tapxor32 ps).s2 < 2 ^ 47 ∧
    (tapxor32 ps).s3 < 2 ^ 39 ∧ (tapxor32 ps).s4 < 2 ^ 37 ∧ (tapxor32 ps).s5 < 2 ^ 59 ∧
    (tapxor32 ps).s6 < 2 ^ 32 := by
  obtain ⟨h0, h1, h2, h3, h4, h5, h6⟩ := h
  refine ⟨h0, ?_, ?_, ?_, ?_, ?_, ?_⟩
  · exact Nat.xor_lt_two_pow h1 (lt_pow_mono (and_MAX_U32_lt _) (by omega))
  · exact Nat.xor_lt_two_pow h2 (lt_pow_mono (and_MAX_U32_lt _) (by omega))
  · exact Nat.xor_lt_two_pow h3 (lt_pow_mono (and_MAX_U32_lt _) (by omega))
  · exact Nat.xor_lt_two_pow h4 (lt_pow_mono (and_MAX_U32_lt _) (by omega))
  · exact Nat.xor_lt_two_pow h5 (lt_pow_mono (and_MAX_U32_lt _) (by omega))
  · exact Nat.xor_lt_two_pow (lt_pow_mono h6 (by omega)) (and_MAX_U32_lt _)

theorem tapxor8_bounds {ps : PState} (h : PBounds ps) :
    (tapxor8 ps).s0 < 2 ^ 61 ∧ (tapxor8 ps).s1 < 2 ^ 46 ∧ (tapxor8 ps).s2 < 2 ^ 47 ∧
    (tapxor8 ps).s3 < 2 ^ 39 ∧ (tapxor8 ps).s4 < 2 ^ 37 ∧ (tapxor8 ps).s5 < 2 ^ 59 ∧
    (tapxor8 ps).s6 < 2 ^ 8 := by
  obtain ⟨h0, h1, h2, h3, h4, h5, h6⟩ := h
  refine ⟨h0, ?_, ?_, ?_, ?_, ?_, ?_⟩
  · exact Nat.xor_lt_two_pow h1 (lt_pow_mono (and_MAX_U8_lt _) (by omega))
  · exact Nat.xor_lt_two_pow h2 (lt_pow_mono (and_MAX_U8_lt _) (by omega))
  · exact Nat.xor_lt_two_pow h3 (lt_pow_mono (and_MAX_U8_lt _) (by omega))
  · exact Nat.xor_lt_two_pow h4 (lt_pow_mono (and_MAX_U8_lt _) (by omega))
  · exact Nat.xor_lt_two_pow h5 (lt_pow_mono (and_MAX_U8_lt _) (by omega))
  · exact Nat.xor_lt_two_pow (lt_pow_mono h6 (by omega)) (and_MAX_U8_lt _)

theorem shift32_bounds {st : PState} {fm : Nat}
    (h : st.s0 < 2 ^ 61 ∧ st.s1 < 2 ^ 46 ∧ st.s2 < 2 ^ 47 ∧ st.s3 < 2 ^ 39 ∧
      st.s4 < 2 ^ 37 ∧ st.s5 < 2 ^ 59 ∧ st.s6 < 2 ^ 32)
    (hfm : fm < 2 ^ 32) : PBounds (shift32 st fm) := by
  obtain ⟨h0, h1, h2, h3, h4, h5, h6⟩ := h
  have ht6 : st.s6 ^^^ fm <<< 4 < 2 ^ 36 :=
    Nat.xor_lt_two_pow (lt_pow_mono h6 (by omega)) (shl_lt_pow 32 4 hfm)
  refine ⟨?_, ?_, ?_, ?_, ?_, ?_, ?_⟩
  · exact Nat.or_lt_two_pow (lt_pow_mono (shr_lt_pow 29 32 h0) (by omega))
      (shl_lt_pow 32 29 (and_MAX_U32_lt _))
  · exact Nat.or_lt_two_pow (lt_pow_mono (shr_lt_pow 14 32 h1) (by omega))
      (shl_lt_pow 32 14 (and_MAX_U32_lt _))
  · exact Nat.or_lt_two_pow (lt_pow_mono (shr_lt_pow 15 32 h2) (by omega))
      (shl_lt_pow 32 15 (and_MAX_U32_lt _))
  · exact Nat.or_lt_two_pow (lt_pow_mono (shr_lt_pow 7 32 h3) (by omega))
      (shl_lt_pow 32 7 (and_MAX_U32_lt _))
  · exact Nat.or_lt_two_pow (lt_pow_mono (shr_lt_pow 5 32 h4) (by omega))
      (shl_lt_pow 32 5 (and_MAX_U32_lt _))
  · exact Nat.or_lt_two_pow (lt_pow_mono (shr_lt_pow 27 32 h5) (by omega))
      (shl_lt_pow 32 27 (and_MAX_U32_lt _))
  · exact shr_lt_pow 4 32 ht6

theorem shift8_bounds {st : PState} {fm : Nat}
    (h : st.s0 < 2 ^ 61 ∧ st.s1 < 2 ^ 46 ∧ st.s2 < 2 ^ 47 ∧ st.s3 < 2 ^ 39 ∧
      st.s4 < 2 ^ 37 ∧ st.s5 < 2 ^ 59 ∧ st.s6 < 2 ^ 8)
    (hfm : fm < 2 ^ 8) : PBounds (shift8 st fm) := by
  obtain ⟨h0, h1, h2, h3, h4, h5, h6⟩ := h
  have ht6 : st.s6 ^^^ fm <<< 4 < 2 ^ 12 :=
    Nat.xor_lt_two_pow (lt_pow_mono h6 (by omega)) (shl_lt_pow 8 4 hfm)
  refine ⟨?_, ?_, ?_, ?_, ?_, ?_, ?_⟩
  · exact Nat.or_lt_two_pow (lt_pow_mono (shr_lt_pow 53 8 h0) (by omega))
      (shl_lt_pow 8 53 (and_MAX_U8_lt _))
  · exact Nat.or_lt_two_pow (lt_pow_mono (shr_lt_pow 38 8 h1) (by omega))
      (shl_lt_pow 8 38 (and_MAX_U8_lt _))
  · exact Nat.or_lt_two_pow (lt_pow_mono (shr_lt_pow 39 8 h2) (by omega))
      (shl_lt_pow 8 39 (and_MAX_U8_lt _))
  · exact Nat.or_lt_two_pow (lt_pow_mono (shr_lt_pow 31 8 h3) (by omega))
      (shl_lt_pow 8 31 (and_MAX_U8_lt _))
  · exact Nat.or_lt_two_pow (lt_pow_mono (shr_lt_pow 29 8 h4) (by omega))
      (shl_lt_pow 8 29 (and_MAX_U8_lt _))
  · exact Nat.or_lt_two_pow (lt_pow_mono (shr_lt_pow 51 8 h5) (by omega))
      (shl_lt_pow 8 51 (and_MAX_U8_lt _))
  · exact shr_lt_pow 4 8 ht6

theorem ksg128_lt (st : PState) : ksg128 st < 2 ^ 32 := by
  unfold ksg128; exact and_MAX_U32_lt _

theorem fbk128_32_lt (st : PState) (ca cb ks : Nat) : fbk128_32 st ca cb ks < 2 ^ 32 := by
  unfold fbk128_32; exact and_MAX_U32_lt _

theorem fbk128_8_lt (st : PState) (ca cb ks : Nat) : fbk128_8 st ca cb ks < 2 ^ 8 := by
  unfold fbk128_8; exact and_MAX_U8_lt _

/-- Claim C10: packed-state width invariant.  The zero-initialized seven-word
state satisfies the segment bounds `s0 < 2^61, s1 < 2^46, s2 < 2^47,
s3 < 2^39, s4 < 2^37, s5 < 2^59, s6 < 2^4`, and every `state_update_128`
overload (32-bit or 8-bit, encrypt-form or decrypt-form, with its message
argument in the range of its C type) preserves them; hence every state
reached from the zero state satisfies them and every tap read via shifts
sees only genuine register bits. -/
theorem claim_C10_width_invariant :
    PBounds zeroP ∧
    (∀ (ps : PState) (m ca cb : Nat), PBounds ps → m < 2 ^ 32 →
      PBounds (state_update_128_enc32 ps m ca cb).1) ∧
    (∀ (ps : PState) (mIn ca cb : Nat), PBounds ps → mIn < 2 ^ 32 →
      PBounds (state_update_128_dec32 ps mIn ca cb).1) ∧
    (∀ (ps : PState) (m ca cb : Nat), PBounds ps → m < 2 ^ 8 →
      PBounds (state_update_128_enc8 ps m ca cb).1) ∧
    (∀ (ps : PState) (mIn ca cb : Nat), PBounds ps → mIn < 2 ^ 8 →
      PBounds (state_update_128_dec8 ps mIn ca cb).1) := by
  refine ⟨by decide, ?_, ?_, ?_, ?_⟩
  · intro ps m ca cb h hm
    exact shift32_bounds (tapxor32_bounds h)
      (Nat.xor_lt_two_pow (fbk128_32_lt _ _ _ _) hm)
  · intro ps mIn ca cb h hm
    exact shift32_bounds (tapxor32_bounds h)
      (Nat.xor_lt_two_pow (fbk128_32_lt _ _ _ _)
        (Nat.xor_lt_two_pow hm (ksg128_lt _)))
  · intro ps m ca cb h hm
    exact shift8_bounds (tapxor8_bounds h)
      (Nat.xor_lt_two_pow (fbk128_8_lt _ _ _ _) hm)
  · intro ps mIn ca cb h hm
    exact shift8_bounds (tapxor8_bounds h)
      (Nat.xor_lt_two_pow (fbk128_8_lt _ _ _ _)
        (Nat.xor_lt_two_pow hm (Nat.and_lt_two_pow _ (by decide))))

set_option maxRecDepth 40000 in
/-- Witness for C10: the invariant instantiated at the concrete reachable
state `s5c` and one concrete call of each overload. -/
theorem claim_C10_witness :
    PBounds (state_update_128_enc32 s5c 7 MAX_U32 0).1 ∧
    PBounds (state_update_128_dec8 s5c 200 MAX_U8 0).1 :=
  ⟨claim_C10_width_invariant.2.1 s5c 7 MAX_U32 0 (by decide) (by decide),
   claim_C10_width_invariant.2.2.2.2 s5c 200 MAX_U8 0 (by decide) (by decide)⟩

theorem testBit_of_lt_256 {b : Nat} (h : b < 256) {i : Nat} (hi : 8 ≤ i) :
    b.testBit i = false :=
  Nat.testBit_lt_two_pow (lt_pow_mono (show b < 2 ^ 8 from h) hi)

theorem from_be_bytes_lt {b0 b1 b2 b3 : Nat} (h0 : b0 < 256) (h1 : b1 < 256)
    (h2 : b2 < 256) (h3 : b3 < 256) : from_be_bytes b0 b1 b2 b3 < 2 ^ 32 := by
  unfold from_be_bytes
  refine Nat.or_lt_two_pow (Nat.or_lt_two_pow ?_ ?_) (Nat.or_lt_two_pow ?_ ?_)
  · exact lt_pow_mono (shl_lt_pow 8 24 h0) (by omega)
  · exact lt_pow_mono (shl_lt_pow 8 16 h1) (by omega)
  · exact lt_pow_mono (shl_lt_pow 8 8 h2) (by omega)
  · exact lt_pow_mono (show b3 < 2 ^ 8 from h3) (by omega)


theorem testBit_from_be {b0 b1 b2 b3 : Nat} (h1 : b1 < 256) (h2 : b2 < 256)
    (h3 : b3 < 256) (i : Nat) :
    (from_be_bytes b0 b1 b2 b3).testBit i =
      if i < 8 then b3.testBit i
      else if i < 16 then b2.testBit (i - 8)
      else if i < 24 then b1.testBit (i - 16)
      else b0.testBit (i - 24) := by
  simp only [from_be_bytes, Nat.testBit_or, Nat.testBit_shiftLeft, ge_iff_le]
  rcases Nat.lt_or_ge i 8 with c1 | c1
  · simp [show ¬(24 ≤ i) by omega, show ¬(16 ≤ i) by omega,
      show ¬(8 ≤ i) by omega, c1]
  rcases Nat.lt_or_ge i 16 with c2 | c2
  · simp [show ¬(24 ≤ i) by omega, show ¬(16 ≤ i) by omega, c1, c2,
      show ¬(i < 8) by omega, @testBit_of_lt_256 b3 h3 i c1]
  rcases Nat.lt_or_ge i 24 with c3 | c3
  · simp [show ¬(24 ≤ i) by omega, c2, c3, show ¬(i < 8) by omega,
      show ¬(i < 16) by omega, @testBit_of_lt_256 b3 h3 i c1,
      @testBit_of_lt_256 b2 h2 (i - 8) (by omega)]
  · simp [c3, show ¬(i < 8) by omega, show ¬(i < 16) by omega,
      show ¬(i < 24) by omega, @testBit_of_lt_256 b3 h3 i c1,
      @testBit_of_lt_256 b2 h2 (i - 8) (by omega),
      @testBit_of_lt_256 b1 h1 (i - 16) (by omega)]

theorem from_be_and_255 {b0 b1 b2 b3 : Nat} (h1 : b1 < 256) (h2 : b2 < 256)
    (h3 : b3 < 256) : from_be_bytes b0 b1 b2 b3 &&& MAX_U8 = b3 := by
  apply Nat.eq_of_testBit_eq
  intro i
  rw [show MAX_U8 = 2 ^ 8 - 1 from rfl, Nat.testBit_and,
    Nat.testBit_two_pow_sub_one, testBit_from_be h1 h2 h3]
  rcases Nat.lt_or_ge i 8 with c1 | c1
  · simp [c1]
  · simp [show ¬(i < 8) by omega, @testBit_of_lt_256 b3 h3 i c1]

theorem from_be_shr_and {b0 b1 b2 b3 : Nat} (h1 : b1 < 256) (h2 : b2 < 256)
    (h3 : b3 < 256) (k : Nat) (b : Nat)
    (hsel : ∀ j, 8 ≤ j → b.testBit j = false)
    (hk : ∀ i, i < 8 →
      (if k + i < 8 then b3.testBit (k + i)
       else if k + i < 16 then b2.testBit (k + i - 8)
       else if k + i < 24 then b1.testBit (k + i - 16)
       else b0.testBit (k + i - 24)) = b.testBit i) :
    (from_be_bytes b0 b1 b2 b3 >>> k) &&& MAX_U8 = b := by
  apply Nat.eq_of_testBit_eq
  intro i
  rw [show MAX_U8 = 2 ^ 8 - 1 from rfl, Nat.testBit_and,
    Nat.testBit_two_pow_sub_one, Nat.testBit_shiftRight,
    testBit_from_be h1 h2 h3]
  rcases Nat.lt_or_ge i 8 with c1 | c1
  · simp [c1, hk i c1]
  · simp [show ¬(i < 8) by omega, hsel i c1]

theorem to_be_from_be {b0 b1 b2 b3 : Nat} (h0 : b0 < 256) (h1 : b1 < 256)
    (h2 : b2 < 256) (h3 : b3 < 256) :
    to_be_bytes (from_be_bytes b0 b1 b2 b3) = [b0, b1, b2, b3] := by
  unfold to_be_bytes
  have e0 : (from_be_bytes b0 b1 b2 b3 >>> 24) &&& MAX_U8 = b0 := by
    refine from_be_shr_and h1 h2 h3 24 b0
      (fun j hj => @testBit_of_lt_256 b0 h0 j hj) (fun i hi => ?_)
    rw [if_neg (by omega), if_neg (by omega), if_neg (by omega),
      show 24 + i - 24 = i by omega]
  have e1 : (from_be_bytes b0 b1 b2 b3 >>> 16) &&& MAX_U8 = b1 := by
    refine from_be_shr_and h1 h2 h3 16 b1
      (fun j hj => @testBit_of_lt_256 b1 h1 j hj) (fun i hi => ?_)
    rw [if_neg (by omega), if_neg (by omega), if_pos (by omega),
      show 16 + i - 16 = i by omega]
  have e2 : (from_be_bytes b0 b1 b2 b3 >>> 8) &&& MAX_U8 = b2 := by
    refine from_be_shr_and h1 h2 h3 8 b2
      (fun j hj => @testBit_of_lt_256 b2 h2 j hj) (fun i hi => ?_)
    rw [if_neg (by omega), if_pos (by omega), show 8 + i - 8 = i by omega]
  have e3 : from_be_bytes b0 b1 b2 b3 &&& MAX_U8 = b3 := from_be_and_255 h1 h2 h3
  rw [e0, e1, e2, e3]

theorem from_be_to_be {w : Nat} (hw : w < 2 ^ 32) :
    from_be_bytes ((w >>> 24) &&& MAX_U8) ((w >>> 16) &&& MAX_U8)
      ((w >>> 8) &&& MAX_U8) (w &&& MAX_U8) = w := by
  apply Nat.eq_of_testBit_eq
  intro i
  rw [testBit_from_be (and_MAX_U8_lt _) (and_MAX_U8_lt _) (and_MAX_U8_lt _)]
  have hm : ∀ (x : Nat) (j : Nat), (x &&& MAX_U8).testBit j =
      (decide (j < 8) && x.testBit j) := by
    intro x j
    rw [show MAX_U8 = 2 ^ 8 - 1 from rfl, Nat.testBit_and,
      Nat.testBit_two_pow_sub_one, Bool.and_comm]
  rcases Nat.lt_or_ge i 8 with c1 | c1
  · rw [if_pos c1, hm]
    simp [c1]
  rcases Nat.lt_or_ge i 16 with c2 | c2
  · rw [if_neg (by omega), if_pos c2, hm, Nat.testBit_shiftRight,
      show 8 + (i - 8) = i by omega]
    simp [show i - 8 < 8 by omega]
  rcases Nat.lt_or_ge i 24 with c3 | c3
  · rw [if_neg (by omega), if_neg (by omega), if_pos c3, hm,
      Nat.testBit_shiftRight, show 16 + (i - 16) = i by omega]
    simp [show i - 16 < 8 by omega]
  rcases Nat.lt_or_ge i 32 with c4 | c4
  · rw [if_neg (by omega), if_neg (by omega), if_neg (by omega), hm,
      Nat.testBit_shiftRight, show 24 + (i - 24) = i by omega]
    simp [show i - 24 < 8 by omega]
  · rw [if_neg (by omega), if_neg (by omega), if_neg (by omega), hm,
      Nat.testBit_shiftRight, show 24 + (i - 24) = i by omega]
    simp [show ¬(i - 24 < 8) by omega,
      Nat.testBit_lt_two_pow (lt_pow_mono hw c4)]

theorem enc32_snd (ps : PState) (m ca cb : Nat) :
    (state_update_128_enc32 ps m ca cb).2 = ksg128 (tapxor32 ps) := rfl

theorem enc8_snd (ps : PState) (m ca cb : Nat) :
    (state_update_128_enc8 ps m ca cb).2 = ksg128 (tapxor8 ps) &&& MAX_U8 := rfl

theorem ksg8_lt (ps : PState) : ksg128 (tapxor8 ps) &&& MAX_U8 < 256 :=
  and_MAX_U8_lt _

/-- The decrypt-form 32-bit update applied to `m ^ ks` undoes the
encrypt-form update that produced `ks`: same new state, plaintext `m`
recovered. -/
theorem dec32_of_enc32 (ps : PState) (m ca cb : Nat) :
    state_update_128_dec32 ps (m ^^^ ksg128 (tapxor32 ps)) ca cb =
      ((state_update_128_enc32 ps m ca cb).1, m) := by
  simp [state_update_128_dec32, state_update_128_enc32, Nat.xor_cancel_right]

/-- 8-bit analogue of `dec32_of_enc32`. -/
theorem dec8_of_enc8 (ps : PState) (m ca cb : Nat) :
    state_update_128_dec8 ps (m ^^^ (ksg128 (tapxor8 ps) &&& MAX_U8)) ca cb =
      ((state_update_128_enc8 ps m ca cb).1, m) := by
  simp [state_update_128_dec8, state_update_128_enc8, Nat.xor_cancel_right]

/-- The encrypt-form 32-bit update applied to the recovered plaintext of a
decrypt-form update reproduces its state and re-creates the ciphertext. -/
theorem enc32_of_dec32 (ps : PState) (mIn ca cb : Nat) :
    state_update_128_enc32 ps ((state_update_128_dec32 ps mIn ca cb).2) ca cb =
      ((state_update_128_dec32 ps mIn ca cb).1, ksg128 (tapxor32 ps)) ∧
    (state_update_128_dec32 ps mIn ca cb).2 ^^^ ksg128 (tapxor32 ps) = mIn := by
  constructor
  · simp [state_update_128_dec32, state_update_128_enc32]
  · simp [state_update_128_dec32, Nat.xor_cancel_right]

/-- 8-bit analogue of `enc32_of_dec32`. -/
theorem enc8_of_dec8 (ps : PState) (mIn ca cb : Nat) :
    state_update_128_enc8 ps ((state_update_128_dec8 ps mIn ca cb).2) ca cb =
      ((state_update_128_dec8 ps mIn ca cb).1, ksg128 (tapxor8 ps) &&& MAX_U8) ∧
    (state_update_128_dec8 ps mIn ca cb).2 ^^^ (ksg128 (tapxor8 ps) &&& MAX_U8) = mIn := by
  constructor
  · simp [state_update_128_dec8, state_update_128_enc8]
  · simp [state_update_128_dec8, Nat.xor_cancel_right]

/-- Decrypting the tail bytes produced by encrypting `text` recovers `text`
and the same state. -/
theorem pct_tail_of_ppt_tail (text : List Nat) (ps : PState) :
    pct_tail ps (ppt_tail ps text).2 = ((ppt_tail ps text).1, text) := by
  induction text generalizing ps with
  | nil => rfl
  | cons b rest ih =>
      simp only [ppt_tail, pct_tail, enc8_snd]
      rw [dec8_of_enc8]
      simp [ih]

/-- Unfolding `process_cipher_text` on a ciphertext that starts with the four
big-endian bytes of a 32-bit word. -/
theorem pct_cons_to_be (ps : PState) (w : Nat) (hw : w < 2 ^ 32) (l : List Nat) :
    process_cipher_text ps (to_be_bytes w ++ l) =
      ((process_cipher_text (state_update_128_dec32 ps w MAX_U32 0).1 l).1,
        to_be_bytes (state_update_128_dec32 ps w MAX_U32 0).2 ++
          (process_cipher_text (state_update_128_dec32 ps w MAX_U32 0).1 l).2) := by
  simp only [to_be_bytes, List.cons_append, List.nil_append, process_cipher_text]
  rw [from_be_to_be hw]
  rfl

/-- Decrypting the ciphertext produced by `process_plain_text` yields back
the plaintext and the same final state (claim C1 at phase level). -/
theorem pct_of_ppt : ∀ (text : List Nat) (ps : PState), (∀ b ∈ text, b < 256) →
    process_cipher_text ps (process_plain_text ps text).2 =
      ((process_plain_text ps text).1, text)
  | b0 :: b1 :: b2 :: b3 :: rest, ps, h => by
      have hb0 : b0 < 256 := h b0 (by simp)
      have hb1 : b1 < 256 := h b1 (by simp)
      have hb2 : b2 < 256 := h b2 (by simp)
      have hb3 : b3 < 256 := h b3 (by simp)
      have hrest : ∀ b ∈ rest, b < 256 := fun b hb => h b (by simp [hb])
      have hlt : from_be_bytes b0 b1 b2 b3 ^^^ ksg128 (tapxor32 ps) < 2 ^ 32 :=
        Nat.xor_lt_two_pow (from_be_bytes_lt hb0 hb1 hb2 hb3) (ksg128_lt _)
      simp only [process_plain_text, enc32_snd]
      rw [pct_cons_to_be _ _ hlt, dec32_of_enc32]
      simp only
      rw [pct_of_ppt rest _ hrest]
      simp [to_be_from_be hb0 hb1 hb2 hb3]
  | [], ps, h => rfl
  | [a], ps, h => by
      simp only [process_plain_text, process_cipher_text, ppt_tail, pct_tail,
        enc8_snd]
      rw [dec8_of_enc8]
  | [a, b], ps, h => by
      simp only [process_plain_text, process_cipher_text, ppt_tail, pct_tail,
        enc8_snd]
      rw [dec8_of_enc8]
      simp only
      rw [dec8_of_enc8]
  | [a, b, c], ps, h => by
      simp only [process_plain_text, process_cipher_text, ppt_tail, pct_tail,
        enc8_snd]
      rw [dec8_of_enc8]
      simp only
      rw [dec8_of_enc8]
      simp only
      rw [dec8_of_enc8]

/-- Unfolding `process_plain_text` on a plaintext that starts with the four
big-endian bytes of a 32-bit word. -/
theorem ppt_cons_to_be (ps : PState) (w : Nat) (hw : w < 2 ^ 32) (l : List Nat) :
    process_plain_text ps (to_be_bytes w ++ l) =
      ((process_plain_text (state_update_128_enc32 ps w MAX_U32 0).1 l).1,
        to_be_bytes (w ^^^ (state_update_128_enc32 ps w MAX_U32 0).2) ++
          (process_plain_text (state_update_128_enc32 ps w MAX_U32 0).1 l).2) := by
  simp only [to_be_bytes, List.cons_append, List.nil_append, process_plain_text]
  rw [from_be_to_be hw]
  rfl

/-- Re-encrypting the tail bytes recovered by `pct_tail` reproduces the
ciphertext tail and the same state. -/
theorem ppt_tail_of_pct_tail (cipher : List Nat) (ps : PState) :
    ppt_tail ps (pct_tail ps cipher).2 = ((pct_tail ps cipher).1, cipher) := by
  induction cipher generalizing ps with
  | nil => rfl
  | cons c rest ih =>
      simp only [pct_tail, ppt_tail]
      rw [(enc8_of_dec8 ps c MAX_U8 0).1]
      simp only
      rw [ih]
      simp only [enc8_snd]
      rw [show (state_update_128_dec8 ps c MAX_U8 0).2 ^^^
          (ksg128 (tapxor8 ps) &&& MAX_U8) = c from (enc8_of_dec8 ps c MAX_U8 0).2]

/-- Encrypting the plaintext recovered by `process_cipher_text` reproduces
the ciphertext and the same final state (the decrypt output is the xor of
the ciphertext with the keystream). -/
theorem ppt_of_pct : ∀ (cipher : List Nat) (ps : PState), (∀ b ∈ cipher, b < 256) →
    process_plain_text ps (process_cipher_text ps cipher).2 =
      ((process_cipher_text ps cipher).1, cipher)
  | c0 :: c1 :: c2 :: c3 :: rest, ps, h => by
      have hc0 : c0 < 256 := h c0 (by simp)
      have hc1 : c1 < 256 := h c1 (by simp)
      have hc2 : c2 < 256 := h c2 (by simp)
      have hc3 : c3 < 256 := h c3 (by simp)
      have hrest : ∀ b ∈ rest, b < 256 := fun b hb => h b (by simp [hb])
      have hlt : (state_update_128_dec32 ps (from_be_bytes c0 c1 c2 c3) MAX_U32 0).2 < 2 ^ 32 :=
        Nat.xor_lt_two_pow (from_be_bytes_lt hc0 hc1 hc2 hc3) (ksg128_lt _)
      simp only [process_cipher_text]
      rw [ppt_cons_to_be _ _ hlt, (enc32_of_dec32 ps (from_be_bytes c0 c1 c2 c3) MAX_U32 0).1]
      simp only [enc32_snd]
      rw [ppt_of_pct rest _ hrest,
        (enc32_of_dec32 ps (from_be_bytes c0 c1 c2 c3) MAX_U32 0).2,
        to_be_from_be hc0 hc1 hc2 hc3]
      simp
  | [], ps, h => rfl
  | [a], ps, h => by
      simp only [process_cipher_text, process_plain_text, pct_tail, ppt_tail,
        enc8_snd]
      rw [(enc8_of_dec8 ps a MAX_U8 0).1]
      simp only
      rw [show (state_update_128_dec8 ps a MAX_U8 0).2 ^^^
          (ksg128 (tapxor8 ps) &&& MAX_U8) = a from (enc8_of_dec8 ps a MAX_U8 0).2]
  | [a, b], ps, h => by
      simp only [process_cipher_text, process_plain_text, pct_tail, ppt_tail,
        enc8_snd]
      rw [(enc8_of_dec8 ps a MAX_U8 0).1]
      simp only
      rw [(enc8_of_dec8 (state_update_128_dec8 ps a MAX_U8 0).1 b MAX_U8 0).1]
      simp only
      rw [show (state_update_128_dec8 ps a MAX_U8 0).2 ^^^
          (ksg128 (tapxor8 ps) &&& MAX_U8) = a from (enc8_of_dec8 ps a MAX_U8 0).2,
        show (state_update_128_dec8 (state_update_128_dec8 ps a MAX_U8 0).1 b MAX_U8 0).2 ^^^
          (ksg128 (tapxor8 (state_update_128_dec8 ps a MAX_U8 0).1) &&& MAX_U8) = b from
          (enc8_of_dec8 (state_update_128_dec8 ps a MAX_U8 0).1 b MAX_U8 0).2]
  | [a, b, c], ps, h => by
      simp only [process_cipher_text, process_plain_text, pct_tail, ppt_tail,
        enc8_snd]
      rw [(enc8_of_dec8 ps a MAX_U8 0).1]
      simp only
      rw [(enc8_of_dec8 (state_update_128_dec8 ps a MAX_U8 0).1 b MAX_U8 0).1]
      simp only
      rw [(enc8_of_dec8
        (state_update_128_dec8 (state_update_128_dec8 ps a MAX_U8 0).1 b MAX_U8 0).1 c MAX_U8 0).1]
      simp only
      rw [show (state_update_128_dec8 ps a MAX_U8 0).2 ^^^
          (ksg128 (tapxor8 ps) &&& MAX_U8) = a from (enc8_of_dec8 ps a MAX_U8 0).2,
        show (state_update_128_dec8 (state_update_128_dec8 ps a MAX_U8 0).1 b MAX_U8 0).2 ^^^
          (ksg128 (tapxor8 (state_update_128_dec8 ps a MAX_U8 0).1) &&& MAX_U8) = b from
          (enc8_of_dec8 (state_update_128_dec8 ps a MAX_U8 0).1 b MAX_U8 0).2,
        show (state_update_128_dec8
            (state_update_128_dec8 (state_update_128_dec8 ps a MAX_U8 0).1 b MAX_U8 0).1 c MAX_U8 0).2 ^^^
          (ksg128 (tapxor8
            (state_update_128_dec8 (state_update_128_dec8 ps a MAX_U8 0).1 b MAX_U8 0).1) &&& MAX_U8) = c from
          (enc8_of_dec8
            (state_update_128_dec8 (state_update_128_dec8 ps a MAX_U8 0).1 b MAX_U8 0).1 c MAX_U8 0).2]

theorem foldl_or_eq_false (p : Nat → Bool) (n : Nat) :
    ((List.range n).foldl (fun f i => f || p i) false = false) ↔
      ∀ i < n, p i = false := by
  induction n with
  | zero => simp
  | succ n ih =>
      rw [List.range_succ, List.foldl_append]
      simp only [List.foldl_cons, List.foldl_nil]
      constructor
      · intro h
        have h1 : (List.range n).foldl (fun f i => f || p i) false = false := by
          by_contra hne
          rw [Bool.not_eq_false] at hne
          rw [hne] at h
          simp at h
        have h2 : p n = false := by
          rw [h1] at h
          simpa using h
        intro i hi
        rcases Nat.lt_or_ge i n with hlt | hge
        · exact (ih.1 h1) i hlt
        · have : i = n := by omega
          rwa [this]
      · intro h
        rw [ih.2 (fun i hi => h i (by omega)), h n (by omega)]
        rfl

theorem getD_eq_of_lists {t r : List Nat} (ht : t.length = 16) (hr : r.length = 16)
    (h : ∀ i, i < 16 → t.getD i 0 = r.getD i 0) : t = r := by
  apply List.ext_getElem (by omega)
  intro n h1 h2
  have hn : n < 16 := by omega
  have := h n hn
  rwa [List.getD_eq_getElem t 0 h1, List.getD_eq_getElem r 0 h2] at this

theorem finalize_tag_length (ps : PState) : (finalize ps).2.length = 16 := by
  simp [finalize, show List.range 4 = [0, 1, 2, 3] from rfl, to_be_bytes]

theorem finalize_tag_bytes (ps : PState) : ∀ b ∈ (finalize ps).2, b < 256 := by
  intro b hb
  simp only [finalize, show List.range 4 = [0, 1, 2, 3] from rfl,
    List.foldl_cons, List.foldl_nil, to_be_bytes, List.append_assoc,
    List.nil_append, List.mem_append, List.mem_cons, List.not_mem_nil,
    or_false] at hb
  rcases hb with h | h | h | h <;> rcases h with h | h | h | h <;> rw [h] <;>
    exact and_MAX_U8_lt _

/-- Claim C1: round-trip.  For every 16-byte key, 16-byte nonce, associated
data and plaintext (any lengths, bytes in range), decrypting the ciphertext
and tag produced by `acorn::encrypt` with `acorn::decrypt` writes back
exactly the original plaintext and returns verification flag `true`. -/
theorem claim_C1_roundtrip (key nonce data text : List Nat)
    (hP : ∀ b ∈ text, b < 256) :
    acorn.decrypt key nonce (acorn.encrypt key nonce text data).2
      (acorn.encrypt key nonce text data).1 data = (text, true) := by
  unfold acorn.decrypt acorn.encrypt
  simp only
  rw [pct_of_ppt text _ hP]
  simp only
  rw [(foldl_or_eq_false _ 16).2 (fun i hi => by simp)]
  rfl

set_option maxRecDepth 40000 in
/-- Witness for C1: the round-trip at a concrete key, nonce, 3-byte
associated data and 5-byte plaintext. -/
theorem claim_C1_witness :
    acorn.decrypt kS1 nS1 (acorn.encrypt kS1 nS1 [1, 2, 3, 4, 5] [9, 8, 7]).2
      (acorn.encrypt kS1 nS1 [1, 2, 3, 4, 5] [9, 8, 7]).1 [9, 8, 7] =
      ([1, 2, 3, 4, 5], true) :=
  claim_C1_roundtrip kS1 nS1 [9, 8, 7] [1, 2, 3, 4, 5] (by decide)

theorem decrypt_flag_iff (key nonce tag cipher data : List Nat)
    (hT : tag.length = 16) :
    (acorn.decrypt key nonce tag cipher data).2 = true ↔
      tag = acorn.recomputed_tag key nonce cipher data := by
  unfold acorn.decrypt acorn.recomputed_tag
  simp only [Bool.not_eq_eq_eq_not, Bool.not_true]
  rw [foldl_or_eq_false]
  constructor
  · intro h
    refine getD_eq_of_lists hT (finalize_tag_length _) (fun i hi => ?_)
    have := h i hi
    rw [bne_eq_false_iff_eq] at this
    exact Nat.xor_eq_zero.1 this
  · intro h i hi
    rw [h, bne_eq_false_iff_eq]
    exact Nat.xor_self _

theorem recomputed_of_encrypt (key nonce data text : List Nat)
    (hP : ∀ b ∈ text, b < 256) :
    acorn.recomputed_tag key nonce (acorn.encrypt key nonce text data).1 data =
      (acorn.encrypt key nonce text data).2 := by
  unfold acorn.recomputed_tag acorn.encrypt
  simp only
  rw [pct_of_ppt text _ hP]

/-- Claim C2: tag verification.  `acorn::decrypt` returns `true` exactly when
the supplied 16-byte tag is byte-for-byte equal to the tag recomputed by
`finalize` from `(K, N, A, C)`; consequently decrypting an `encrypt` output
with any 16-byte tag that differs from the produced tag returns `false`. -/
theorem claim_C2_tag_verification (key nonce data cipher T : List Nat)
    (hT : T.length = 16) :
    ((acorn.decrypt key nonce T cipher data).2 = true ↔
      T = acorn.recomputed_tag key nonce cipher data) ∧
    (∀ text T2, (∀ b ∈ text, b < 256) → T2.length = 16 →
      T2 ≠ (acorn.encrypt key nonce text data).2 →
      (acorn.decrypt key nonce T2 (acorn.encrypt key nonce text data).1 data).2 = false) := by
  refine ⟨decrypt_flag_iff key nonce T cipher data hT, ?_⟩
  intro text T2 hP hlen hne
  cases hflag : (acorn.decrypt key nonce T2 (acorn.encrypt key nonce text data).1 data).2 with
  | false => rfl
  | true =>
      exact absurd
        (((decrypt_flag_iff key nonce T2 (acorn.encrypt key nonce text data).1 data hlen).1
            hflag).trans (recomputed_of_encrypt key nonce data text hP))
        hne

set_option maxRecDepth 40000 in
/-- Witness for C2: the characterization instantiated at a concrete input
and an all-zero candidate tag. -/
theorem claim_C2_witness :
    ((acorn.decrypt kS1 nS1 (List.replicate 16 0) [] []).2 = true ↔
      List.replicate 16 0 = acorn.recomputed_tag kS1 nS1 [] []) ∧
    (∀ text T2, (∀ b ∈ text, b < 256) → T2.length = 16 →
      T2 ≠ (acorn.encrypt kS1 nS1 text []).2 →
      (acorn.decrypt kS1 nS1 T2 (acorn.encrypt kS1 nS1 text []).1 []).2 = false) :=
  claim_C2_tag_verification kS1 nS1 [] [] (List.replicate 16 0) (by decide)

/-- Claim C9: the plaintext buffer written by `acorn::decrypt` does not
depend on the supplied tag (the tag only influences the returned flag), and
it is exactly the xor of the ciphertext with the keystream derived from
`(K, N, A)`: re-encrypting the recovered plaintext under the same key, nonce
and associated data reproduces the ciphertext byte-for-byte (and the
recomputed tag).  In this embedding `decrypt` is a total function, so it
always returns normally. -/
theorem claim_C9_decrypt_text_tag_independent (key nonce data cipher T1 T2 : List Nat)
    (hC : ∀ b ∈ cipher, b < 256) :
    (acorn.decrypt key nonce T1 cipher data).1 =
      (acorn.decrypt key nonce T2 cipher data).1 ∧
    acorn.encrypt key nonce (acorn.decrypt key nonce T1 cipher data).1 data =
      (cipher, acorn.recomputed_tag key nonce cipher data) := by
  refine ⟨rfl, ?_⟩
  unfold acorn.decrypt acorn.encrypt acorn.recomputed_tag
  simp only
  rw [ppt_of_pct cipher _ hC]

set_option maxRecDepth 40000 in
/-- Witness for C9: tag independence at a concrete ciphertext and two
concrete distinct tags. -/
theorem claim_C9_witness :
    (acorn.decrypt kS1 nS1 (List.replicate 16 0) [10, 20, 30] [5]).1 =
      (acorn.decrypt kS1 nS1 (List.replicate 16 255) [10, 20, 30] [5]).1 ∧
    acorn.encrypt kS1 nS1
        (acorn.decrypt kS1 nS1 (List.replicate 16 0) [10, 20, 30] [5]).1 [5] =
      ([10, 20, 30], acorn.recomputed_tag kS1 nS1 [10, 20, 30] [5]) :=
  claim_C9_decrypt_text_tag_independent kS1 nS1 [5] [10, 20, 30]
    (List.replicate 16 0) (List.replicate 16 255) (by decide)

theorem foldl_range_getD (f : Nat → Bool → Nat) (l : List Bool) (s : Nat) :
    (List.range l.length).foldl (fun s i => f s (l.getD i false)) s = l.foldl f s := by
  induction l generalizing s with
  | nil => rfl
  | cons b t ih =>
      rw [List.length_cons, List.range_succ_eq_map, List.foldl_cons,
        List.foldl_map, List.foldl_cons]
      simpa using ih (f s b)

set_option maxRecDepth 8000 in
/-- Claim C8: initialization schedule.  The bit-form `initialize` equals
1792 state-update steps on the all-zero state, all with `ca = cb = 1`,
absorbing: the 128 key bits, the 128 nonce bits, `key[0] xor 1`, then 1535
bits read from the key cyclically starting at bit position 1. -/
theorem claim_C8_init_schedule (key iv : List Bool)
    (hk : key.length = 128) (hi : iv.length = 128) :
    acornbit.init_state key iv =
      acornbit.absorb 0
        (key ++ iv ++ (xor (key.getD 0 false) true ::
          (List.range 1535).map (fun i => key.getD ((i + 1) % 128) false)))
        true true ∧
    (key ++ iv ++ (xor (key.getD 0 false) true ::
      (List.range 1535).map (fun i => key.getD ((i + 1) % 128) false))).length = 1792 := by
  constructor
  · have hkey : ∀ s, (List.range 128).foldl
        (fun s i => (acornbit.state_update_128 s (key.getD i false) true true).1) s =
        key.foldl (fun s b => (acornbit.state_update_128 s b true true).1) s := by
      intro s
      rw [← hk]
      exact foldl_range_getD
        (fun s b => (acornbit.state_update_128 s b true true).1) key s
    have hiv : ∀ s, (List.range 128).foldl
        (fun s i => (acornbit.state_update_128 s (iv.getD i false) true true).1) s =
        iv.foldl (fun s b => (acornbit.state_update_128 s b true true).1) s := by
      intro s
      rw [← hi]
      exact foldl_range_getD
        (fun s b => (acornbit.state_update_128 s b true true).1) iv s
    simp only [acornbit.init_state, acornbit.absorb]
    rw [List.foldl_append, List.foldl_append, List.foldl_cons, List.foldl_map,
      hkey, hiv]
  · simp [hk, hi]

/-- Witness for C8: the schedule instantiated at a concrete all-ones key and
all-zeros nonce bit sequence. -/
theorem claim_C8_witness :
    acornbit.init_state (List.replicate 128 true) (List.replicate 128 false) =
      acornbit.absorb 0
        (List.replicate 128 true ++ List.replicate 128 false ++
          (xor ((List.replicate 128 true).getD 0 false) true ::
            (List.range 1535).map
              (fun i => (List.replicate 128 true).getD ((i + 1) % 128) false)))
        true true ∧
    (List.replicate 128 true ++ List.replicate 128 false ++
      (xor ((List.replicate 128 true).getD 0 false) true ::
        (List.range 1535).map
          (fun i => (List.replicate 128 true).getD ((i + 1) % 128) false))).length = 1792 :=
  claim_C8_init_schedule (List.replicate 128 true) (List.replicate 128 false)
    (by simp) (by simp)

/-- Claim C6 (refuting evidence): the packed `process_associated_data`
performs `8*|A| + 288` state-update bit-lanes, not `8*|A| + 256`: after the
data bits it absorbs the word `1` (one `1` bit and 31 `0` bits) and then
four more zero words with `ca = cb = MAX_U32` followed by four zero words
with `ca = 0`, i.e. a 288-bit trailer (the single `1`, 159 zeros with
`ca = 1`, 128 zeros with `ca = 0`).  On empty data the function is exactly
the nine-word trailer `ad_trailer`. -/
theorem claim_C6_ad_step_count :
    (∀ len : Nat, ad_absorbed_bits len = 8 * len + 288 ∧
      ad_absorbed_bits len ≠ 8 * len + 256) ∧
    (∀ ps : PState, process_associated_data ps [] = ad_trailer ps) := by
  constructor
  · intro len
    unfold ad_absorbed_bits
    omega
  · intro ps
    rfl

theorem absorb_append (s : Nat) (l1 l2 : List Bool) (ca cb : Bool) :
    acornbit.absorb s (l1 ++ l2) ca cb =
      acornbit.absorb (acornbit.absorb s l1 ca cb) l2 ca cb := by
  unfold acornbit.absorb
  exact List.foldl_append _ _ _ _

theorem msbBits_cons (b : Nat) (t : List Nat) :
    acornbit.msbBits (b :: t) = acornbit.bitsOfByteMsb b ++ acornbit.msbBits t := by
  simp [acornbit.msbBits]

/-- The byte loop of the bit-form `process_associated_data` absorbs exactly
the MSB-first bit expansion of the data. -/
theorem ad_eq_stream (data : List Nat) (s : Nat) :
    acornbit.process_associated_data s data =
      acornbit.ad_trailer_bits (acornbit.absorb s (acornbit.msbBits data) true true) := by
  induction data generalizing s with
  | nil => rfl
  | cons b t ih =>
      have h1 : acornbit.process_associated_data s (b :: t) =
          acornbit.process_associated_data
            (acornbit.absorb s (acornbit.bitsOfByteMsb b) true true) t := rfl
      rw [h1, ih, msbBits_cons, absorb_append]

/-- Splitting `enc_bits` at a byte boundary. -/
theorem enc_bits_byte (b : Nat) (l : List Bool) (s : Nat) :
    (acornbit.enc_bits s (acornbit.bitsOfByteMsb b ++ l)).1 =
      (acornbit.enc_bits (acornbit.ppt_byte s b).1 l).1 ∧
    acornbit.bytesOfBitsMsb (acornbit.enc_bits s (acornbit.bitsOfByteMsb b ++ l)).2 =
      (acornbit.ppt_byte s b).2 ::
        acornbit.bytesOfBitsMsb (acornbit.enc_bits (acornbit.ppt_byte s b).1 l).2 :=
  ⟨rfl, rfl⟩

/-- The byte loop of the bit-form `process_plain_text` equals the bit-stream
encryption of the MSB-first expansion, with the cipher bits repacked
MSB-first. -/
theorem ppt_fold_eq (text : List Nat) (s : Nat) (acc : List Nat) :
    text.foldl (fun (a : Nat × List Nat) byte =>
        let rb := acornbit.ppt_byte a.1 byte
        (rb.1, a.2 ++ [rb.2])) (s, acc) =
      ((acornbit.enc_bits s (acornbit.msbBits text)).1,
        acc ++ acornbit.bytesOfBitsMsb (acornbit.enc_bits s (acornbit.msbBits text)).2) := by
  induction text generalizing s acc with
  | nil => simp [acornbit.msbBits, acornbit.enc_bits, acornbit.bytesOfBitsMsb]
  | cons b t ih =>
      rw [List.foldl_cons]
      simp only
      rw [ih]
      rw [msbBits_cons]
      rw [(enc_bits_byte b (acornbit.msbBits t) s).1,
        (enc_bits_byte b (acornbit.msbBits t) s).2]
      simp

/-- `fin_bytes` collects exactly the MSB-first repacking of the keystream
bits emitted by `ks_bits`. -/
theorem fin_bytes_eq_ks_bits (n : Nat) (s : Nat) :
    acornbit.fin_bytes s n =
      ((acornbit.ks_bits s (8 * n)).1,
        acornbit.bytesOfBitsMsb (acornbit.ks_bits s (8 * n)).2) := by
  induction n generalizing s with
  | zero => rfl
  | succ n ih =>
      have h1 : (acornbit.ks_bits s (8 * n + 8)).1 =
          (acornbit.ks_bits (acornbit.fin_byte s).1 (8 * n)).1 := rfl
      have h2 : acornbit.bytesOfBitsMsb (acornbit.ks_bits s (8 * n + 8)).2 =
          (acornbit.fin_byte s).2 ::
            acornbit.bytesOfBitsMsb (acornbit.ks_bits (acornbit.fin_byte s).1 (8 * n)).2 := rfl
      have hn : 8 * (n + 1) = 8 * n + 8 := by omega
      rw [show acornbit.fin_bytes s (n + 1) =
          ((acornbit.fin_bytes (acornbit.fin_byte s).1 n).1,
            (acornbit.fin_byte s).2 ::
              (acornbit.fin_bytes (acornbit.fin_byte s).1 n).2) from rfl]
      rw [ih, hn, h1, h2]

/-- The bit-form byte-level `acorn::encrypt` equals the bit-level Acorn
model driven by the MSB-first expansion of all byte inputs, with cipher and
tag bits repacked into bytes MSB-first (the provable part of the MSB-first
convention claim). -/
theorem bitform_encrypt_eq_msb_model (key nonce text data : List Nat) :
    acornbit.encrypt key nonce text data =
      acornbit.msb_model_encrypt key nonce text data := by
  unfold acornbit.encrypt acornbit.msb_model_encrypt acornbit.stream_encrypt
  simp only
  rw [ad_eq_stream]
  unfold acornbit.process_plain_text
  rw [ppt_fold_eq]
  simp only [List.nil_append]
  unfold acornbit.finalize
  rw [fin_bytes_eq_ks_bits]
  rfl

theorem keyCycle_eq_fold (kb : List Bool) (s : Nat) :
    (List.range 1535).foldl
      (fun s j => (acornbit.state_update_128 s (kb.getD ((j + 1) % 128) false) true true).1) s =
    acornbit.keyCycleChunk kb 0 1535 s := by
  unfold acornbit.keyCycleChunk
  simp only [Nat.zero_add]

theorem keyCycle_split (kb : List Bool) (off a b s : Nat) :
    acornbit.keyCycleChunk kb off (a + b) s =
      acornbit.keyCycleChunk kb (off + a) b (acornbit.keyCycleChunk kb off a s) := by
  unfold acornbit.keyCycleChunk
  rw [List.range_add, List.foldl_append, List.foldl_map]
  simp only [show ∀ j : Nat, off + (a + j) + 1 = off + a + j + 1 from
    fun j => by omega]

theorem constChunk_add (m ca cb : Bool) (a b s : Nat) :
    acornbit.constChunk m ca cb (a + b) s =
      acornbit.constChunk m ca cb b (acornbit.constChunk m ca cb a s) := by
  unfold acornbit.constChunk
  rw [List.range_add, List.foldl_append, List.foldl_map]

theorem fin_bytes_add (a b : Nat) (s : Nat) :
    acornbit.fin_bytes s (a + b) =
      ((acornbit.fin_bytes (acornbit.fin_bytes s a).1 b).1,
        (acornbit.fin_bytes s a).2 ++ (acornbit.fin_bytes (acornbit.fin_bytes s a).1 b).2) := by
  induction a generalizing s with
  | zero =>
      rw [Nat.zero_add]
      simp [show acornbit.fin_bytes s 0 = (s, ([] : List Nat)) from rfl]
  | succ a ih =>
      rw [show a + 1 + b = (a + b) + 1 from by omega]
      rw [show acornbit.fin_bytes s (a + b + 1) =
          ((acornbit.fin_bytes (acornbit.fin_byte s).1 (a + b)).1,
            (acornbit.fin_byte s).2 ::
              (acornbit.fin_bytes (acornbit.fin_byte s).1 (a + b)).2) from rfl]
      rw [ih]
      rw [show acornbit.fin_bytes s (a + 1) =
          ((acornbit.fin_bytes (acornbit.fin_byte s).1 a).1,
            (acornbit.fin_byte s).2 ::
              (acornbit.fin_bytes (acornbit.fin_byte s).1 a).2) from rfl]
      simp

theorem pad_nil (s : Nat) :
    acornbit.process_associated_data s [] =
      acornbit.constChunk false false true 128
        (acornbit.constChunk false true true 127
          ((acornbit.state_update_128 s true true true).1)) := by
  unfold acornbit.process_associated_data acornbit.constChunk
  rfl

theorem ppt_nil (s : Nat) :
    acornbit.process_plain_text s [] =
      (acornbit.constChunk false false false 128
        (acornbit.constChunk false true false 127
          ((acornbit.state_update_128 s true true false).1)), []) := by
  unfold acornbit.process_plain_text acornbit.constChunk
  rfl

theorem finalize_eq (s : Nat) :
    acornbit.finalize s =
      acornbit.fin_bytes (acornbit.constChunk false true true 640 s) 16 := by
  unfold acornbit.finalize acornbit.constChunk
  rfl

set_option maxRecDepth 100000 in
set_option maxHeartbeats 8000000 in
/-- Evaluation of the bit-form encrypt at the S1 key and nonce with empty
associated data and empty plaintext, in bounded chunks. -/
theorem bit_encrypt_kS1_empty :
    acornbit.encrypt kS1 nS1 [] [] =
      ([], [224, 12, 199, 199, 121, 204, 13, 74, 55, 238, 135, 137, 180, 252, 138, 134]) := by
  have hA : (List.range 128).foldl
      (fun s i => (acornbit.state_update_128 s ((acornbit.msbBits kS1).getD i false) true true).1)
      0 = 4201052219482199475477641608038327001999600007293291041942841379245561708632817910415360 := by decide
  have hB : (List.range 128).foldl
      (fun s i => (acornbit.state_update_128 s ((acornbit.msbBits nS1).getD i false) true true).1)
      4201052219482199475477641608038327001999600007293291041942841379245561708632817910415360 = 6263026520405415560336732035906360988974145357063289194278950258990594323658616369840128 := by decide
  have hC : (acornbit.state_update_128 6263026520405415560336732035906360988974145357063289194278950258990594323658616369840128 (xor ((acornbit.msbBits kS1).getD 0 false) true) true true).1 = 11088685042759294055517200281657411511259113672819213694845543514011005384830712817909760 := by decide
  have hK1 : acornbit.keyCycleChunk (acornbit.msbBits kS1) 0 128 11088685042759294055517200281657411511259113672819213694845543514011005384830712817909760 = 4754858089177755527827692848141352899469544148077525901189787237882607760410947687968143 := by decide
  have hK2 : acornbit.keyCycleChunk (acornbit.msbBits kS1) 128 128 4754858089177755527827692848141352899469544148077525901189787237882607760410947687968143 = 2995938487198750863307613695416978632913099085717954024503513283103134642077010234450022 := by decide
  have hK3 : acornbit.keyCycleChunk (acornbit.msbBits kS1) 256 128 2995938487198750863307613695416978632913099085717954024503513283103134642077010234450022 = 5730187418088028408744019021904916725470785444014045157700320350517250413098021884851456 := by decide
  have hK4 : acornbit.keyCycleChunk (acornbit.msbBits kS1) 384 128 5730187418088028408744019021904916725470785444014045157700320350517250413098021884851456 = 12216268529769376038409337204102021009749236264292200026818337865920328189074775738657861 := by decide
  have hK5 : acornbit.keyCycleChunk (acornbit.msbBits kS1) 512 128 12216268529769376038409337204102021009749236264292200026818337865920328189074775738657861 = 7014718510862402614607383758000024776205095495143775177524763956551558777440250599917288 := by decide
  have hK6 : acornbit.keyCycleChunk (acornbit.msbBits kS1) 640 128 7014718510862402614607383758000024776205095495143775177524763956551558777440250599917288 = 6323590902285170300998678558603104166032672213974444012896687275263285154499800702384877 := by decide
  have hK7 : acornbit.keyCycleChunk (acornbit.msbBits kS1) 768 128 6323590902285170300998678558603104166032672213974444012896687275263285154499800702384877 = 8205690203537465559853748819358378394056637102672816675995205909805222903182528477671470 := by decide
  have hK8 : acornbit.keyCycleChunk (acornbit.msbBits kS1) 896 128 8205690203537465559853748819358378394056637102672816675995205909805222903182528477671470 = 2096994465172361033332645566585971869943675887483056538473815080630605091781104758214314 := by decide
  have hK9 : acornbit.keyCycleChunk (acornbit.msbBits kS1) 1024 128 2096994465172361033332645566585971869943675887483056538473815080630605091781104758214314 = 10009447293527864957579547119988813561856967256064312000111200603233121691312761880396893 := by decide
  have hK10 : acornbit.keyCycleChunk (acornbit.msbBits kS1) 1152 128 10009447293527864957579547119988813561856967256064312000111200603233121691312761880396893 = 13886790833952142498438595621560419446538635113800876750549726793421051286769497716490317 := by decide
  have hK11 : acornbit.keyCycleChunk (acornbit.msbBits kS1) 1280 128 13886790833952142498438595621560419446538635113800876750549726793421051286769497716490317 = 9520396770774409565246835480337342779106652512976694131191910454741360552098047066286003 := by decide
  have hK12 : acornbit.keyCycleChunk (acornbit.msbBits kS1) 1408 127 9520396770774409565246835480337342779106652512976694131191910454741360552098047066286003 = 8858458298639733888793337346187997339662425446131533279658169085889362410193111909385869 := by decide
  have hS1 : acornbit.keyCycleChunk (acornbit.msbBits kS1) 0 1535 11088685042759294055517200281657411511259113672819213694845543514011005384830712817909760 =
      acornbit.keyCycleChunk (acornbit.msbBits kS1) 128 1407 4754858089177755527827692848141352899469544148077525901189787237882607760410947687968143 := by
    rw [show (1535 : Nat) = 128 + 1407 from rfl, keyCycle_split, hK1]
  have hS2 : acornbit.keyCycleChunk (acornbit.msbBits kS1) 128 1407 4754858089177755527827692848141352899469544148077525901189787237882607760410947687968143 =
      acornbit.keyCycleChunk (acornbit.msbBits kS1) 256 1279 2995938487198750863307613695416978632913099085717954024503513283103134642077010234450022 := by
    rw [show (1407 : Nat) = 128 + 1279 from rfl, keyCycle_split, hK2]
  have hS3 : acornbit.keyCycleChunk (acornbit.msbBits kS1) 256 1279 2995938487198750863307613695416978632913099085717954024503513283103134642077010234450022 =
      acornbit.keyCycleChunk (acornbit.msbBits kS1) 384 1151 5730187418088028408744019021904916725470785444014045157700320350517250413098021884851456 := by
    rw [show (1279 : Nat) = 128 + 1151 from rfl, keyCycle_split, hK3]
  have hS4 : acornbit.keyCycleChunk (acornbit.msbBits kS1) 384 1151 5730187418088028408744019021904916725470785444014045157700320350517250413098021884851456 =
      acornbit.keyCycleChunk (acornbit.msbBits kS1) 512 1023 12216268529769376038409337204102021009749236264292200026818337865920328189074775738657861 := by
    rw [show (1151 : Nat) = 128 + 1023 from rfl, keyCycle_split, hK4]
  have hS5 : acornbit.keyCycleChunk (acornbit.msbBits kS1) 512 1023 12216268529769376038409337204102021009749236264292200026818337865920328189074775738657861 =
      acornbit.keyCycleChunk (acornbit.msbBits kS1) 640 895 7014718510862402614607383758000024776205095495143775177524763956551558777440250599917288 := by
    rw [show (1023 : Nat) = 128 + 895 from rfl, keyCycle_split, hK5]
  have hS6 : acornbit.keyCycleChunk (acornbit.msbBits kS1) 640 895 7014718510862402614607383758000024776205095495143775177524763956551558777440250599917288 =
      acornbit.keyCycleChunk (acornbit.msbBits kS1) 768 767 6323590902285170300998678558603104166032672213974444012896687275263285154499800702384877 := by
    rw [show (895 : Nat) = 128 + 767 from rfl, keyCycle_split, hK6]
  have hS7 : acornbit.keyCycleChunk (acornbit.msbBits kS1) 768 767 6323590902285170300998678558603104166032672213974444012896687275263285154499800702384877 =
      acornbit.keyCycleChunk (acornbit.msbBits kS1) 896 639 8205690203537465559853748819358378394056637102672816675995205909805222903182528477671470 := by
    rw [show (767 : Nat) = 128 + 639 from rfl, keyCycle_split, hK7]
  have hS8 : acornbit.keyCycleChunk (acornbit.msbBits kS1) 896 639 8205690203537465559853748819358378394056637102672816675995205909805222903182528477671470 =
      acornbit.keyCycleChunk (acornbit.msbBits kS1) 1024 511 2096994465172361033332645566585971869943675887483056538473815080630605091781104758214314 := by
    rw [show (639 : Nat) = 128 + 511 from rfl, keyCycle_split, hK8]
  have hS9 : acornbit.keyCycleChunk (acornbit.msbBits kS1) 1024 511 2096994465172361033332645566585971869943675887483056538473815080630605091781104758214314 =
      acornbit.keyCycleChunk (acornbit.msbBits kS1) 1152 383 10009447293527864957579547119988813561856967256064312000111200603233121691312761880396893 := by
    rw [show (511 : Nat) = 128 + 383 from rfl, keyCycle_split, hK9]
  have hS10 : acornbit.keyCycleChunk (acornbit.msbBits kS1) 1152 383 10009447293527864957579547119988813561856967256064312000111200603233121691312761880396893 =
      acornbit.keyCycleChunk (acornbit.msbBits kS1) 1280 255 13886790833952142498438595621560419446538635113800876750549726793421051286769497716490317 := by
    rw [show (383 : Nat) = 128 + 255 from rfl, keyCycle_split, hK10]
  have hS11 : acornbit.keyCycleChunk (acornbit.msbBits kS1) 1280 255 13886790833952142498438595621560419446538635113800876750549726793421051286769497716490317 =
      acornbit.keyCycleChunk (acornbit.msbBits kS1) 1408 127 9520396770774409565246835480337342779106652512976694131191910454741360552098047066286003 := by
    rw [show (255 : Nat) = 128 + 127 from rfl, keyCycle_split, hK11]
  have hT1 : (acornbit.state_update_128 8858458298639733888793337346187997339662425446131533279658169085889362410193111909385869 true true true).1 = 12386400931876453219745502936785675483132468937844122511090818766755035802943730461827910 := by decide
  have hT2 : acornbit.constChunk false true true 127 12386400931876453219745502936785675483132468937844122511090818766755035802943730461827910 = 10686353394160419698223202364760747824488241867188361193627141177159734655168467543316040 := by decide
  have hT3 : acornbit.constChunk false false true 128 10686353394160419698223202364760747824488241867188361193627141177159734655168467543316040 = 14746262090691209798503136573636855209797024953947543464895491855247984263468959382148246 := by decide
  have hU1 : (acornbit.state_update_128 14746262090691209798503136573636855209797024953947543464895491855247984263468959382148246 true true false).1 = 15330302827902191174600402550522658621670542053279799182393636207437338077079004256946763 := by decide
  have hU2 : acornbit.constChunk false true false 127 15330302827902191174600402550522658621670542053279799182393636207437338077079004256946763 = 7853867403501893638672508463737439160155264642461378518906783334707597476080166727392330 := by decide
  have hU3 : acornbit.constChunk false false false 128 7853867403501893638672508463737439160155264642461378518906783334707597476080166727392330 = 89478048694119833529551257475198375740690973819808413793646175710068920995751956845288 := by decide
  have hF1 : acornbit.constChunk false true true 128 89478048694119833529551257475198375740690973819808413793646175710068920995751956845288 = 5462888066092842179153840989092120387222769406784835352390276977774434807155108499885285 := by decide
  have hF2 : acornbit.constChunk false true true 128 5462888066092842179153840989092120387222769406784835352390276977774434807155108499885285 = 14455926870489664463095648580797006915268109275159437586094344214856053388801672647302712 := by decide
  have hF3 : acornbit.constChunk false true true 128 14455926870489664463095648580797006915268109275159437586094344214856053388801672647302712 = 4575592182353724067546835708789272538332518293364853711551999974338032854734914820489841 := by decide
  have hF4 : acornbit.constChunk false true true 128 4575592182353724067546835708789272538332518293364853711551999974338032854734914820489841 = 14849217122056810657442632311903849067123019038544902687877776472803820373880248488834489 := by decide
  have hF5 : acornbit.constChunk false true true 128 14849217122056810657442632311903849067123019038544902687877776472803820373880248488834489 = 11238029560531933481189671845919049823795901859987774818885101721592711515178486710957044 := by decide
  have hFin : acornbit.constChunk false true true 640 89478048694119833529551257475198375740690973819808413793646175710068920995751956845288 = 11238029560531933481189671845919049823795901859987774818885101721592711515178486710957044 := by
    rw [show (640 : Nat) = 128 + 512 from rfl, constChunk_add, hF1,
      show (512 : Nat) = 128 + 384 from rfl, constChunk_add, hF2,
      show (384 : Nat) = 128 + 256 from rfl, constChunk_add, hF3,
      show (256 : Nat) = 128 + 128 from rfl, constChunk_add, hF4, hF5]
  have hG1 : acornbit.fin_bytes 11238029560531933481189671845919049823795901859987774818885101721592711515178486710957044 8 = (7789767861587175509786273272244115146116284313427444732171171868225513927977385245307646, [224, 12, 199, 199, 121, 204, 13, 74]) := by decide
  have hG2 : acornbit.fin_bytes 7789767861587175509786273272244115146116284313427444732171171868225513927977385245307646 8 = (10799137693607678566076200833528981661829392235942700202130204610503506551435119050356801, [55, 238, 135, 137, 180, 252, 138, 134]) := by decide
  have hG : acornbit.fin_bytes 11238029560531933481189671845919049823795901859987774818885101721592711515178486710957044 16 = (10799137693607678566076200833528981661829392235942700202130204610503506551435119050356801, [224, 12, 199, 199, 121, 204, 13, 74, 55, 238, 135, 137, 180, 252, 138, 134]) := by
    rw [show (16 : Nat) = 8 + 8 from rfl, fin_bytes_add, hG1, hG2]
    rfl
  unfold acornbit.encrypt acornbit.init_state
  simp only
  rw [hA, hB, hC, keyCycle_eq_fold, hS1, hS2, hS3, hS4, hS5, hS6, hS7,
    hS8, hS9, hS10, hS11, hK12, pad_nil, hT1, hT2, hT3, ppt_nil]
  simp only
  rw [hU1, hU2, hU3, finalize_eq, hFin, hG]

set_option maxRecDepth 200000 in
/-- Claim C3 (refuting evidence): the packed-form and bit-form `acorn::encrypt`
give different 16-byte tags already for empty associated data and empty
plaintext under the README key and nonce, so the two representations do not
yield identical results. -/
theorem claim_C3_packed_vs_bitform :
    acorn.encrypt kS1 nS1 [] [] ≠ acornbit.encrypt kS1 nS1 [] [] := by
  rw [bit_encrypt_kS1_empty]
  decide

set_option maxRecDepth 200000 in
/-- Claim C4 (refuting evidence): at the packed state reached from zero by
five bulk 32-bit updates (message 0, `ca = cb = MAX_U32`), one further bulk
32-bit update does not produce the same 293-bit logical state as 32
single-bit updates with the corresponding message and control bits. -/
theorem claim_C4_bulk_neq_32_single_steps :
    toBits ((state_update_128_enc32 s5c 0 MAX_U32 MAX_U32).1) ≠
      (List.range 32).foldl
        (fun s _ => (acornbit.state_update_128 s false true true).1) (toBits s5c) := by
  decide

set_option maxRecDepth 200000 in
/-- Claim C5 (refuting evidence): the packed `acorn::encrypt` applied to the
README usage-example inputs produces ciphertext
`ab 64 ad 43 ...` and tag `a0 68 20 41 ...`, not the ciphertext
`b4 2e 4d ca ...` and tag `06 28 80 70 ...` documented in the README. -/
theorem claim_C5_kat_mismatch :
    acorn.encrypt kS1 nS1 pS1 aS1 =
      ([171, 100, 173, 67, 131, 200, 101, 100, 174, 110, 241, 41, 63, 10, 196,
        144, 121, 121, 121, 134, 212, 27, 109, 27, 216, 189, 228, 246, 221,
        198, 220, 82],
       [160, 104, 32, 65, 208, 169, 113, 180, 76, 164, 16, 206, 227, 1, 232, 252]) ∧
    acorn.encrypt kS1 nS1 pS1 aS1 ≠ (expC, expT) := by
  constructor
  · decide
  · decide

/-- Claim C7 (amended): the bit-form byte-level `acorn::encrypt` absorbs and
emits bytes most-significant bit first: it equals the bit-level Acorn stream
model driven by the MSB-first expansion of key, nonce, associated data and
plaintext, with the cipher bits and the 128 final keystream bits packed into
bytes MSB-first. -/
theorem claim_C7_msb_first_bitform (key nonce text data : List Nat) :
    acornbit.encrypt key nonce text data =
      acornbit.msb_model_encrypt key nonce text data :=
  bitform_encrypt_eq_msb_model key nonce text data

set_option maxRecDepth 200000 in
/-- Counterexample for C7 as stated: the packed byte-level `acorn::encrypt`
does not equal the MSB-first bit-level model, already on empty associated
data and plaintext. -/
theorem claim_C7_counterexample :
    acorn.encrypt kS1 nS1 [] [] ≠ acornbit.msb_model_encrypt kS1 nS1 [] [] := by
  rw [← bitform_encrypt_eq_msb_model, bit_encrypt_kS1_empty]
  decide
